import Mathlib

/-!
Verification development for a browser-based spreadsheet cleaning tool.

The development shallowly embeds the data model and the core algorithms of
the repository: the validation rule engine, the heuristic correction engine,
the natural-language query and rule parsers (including a small backtracking
regular-expression engine used to give exact semantics to the JavaScript
regular expressions appearing in the source), and the AHP weighting engine.

Numbers in the source are JavaScript floats; except where a claim is
explicitly about NaN/Infinity behaviour (where a dedicated JSNum type with
NaN and signed infinities is used), they are modelled as exact rationals.
Dynamically-typed JavaScript values are modelled by the JSVal type, and
operations that can raise a TypeError at runtime are embedded in the
Except String monad.
-/

/-- Model of a JavaScript scalar / array value as stored in a spreadsheet
row or produced by the parsers.  Numbers are modelled as exact rationals. -/
inductive JSVal where
  | str (s : String)
  | num (q : ℚ)
  | bool (b : Bool)
  | null
  | undefined
  | arr (xs : List JSVal)

/-- JavaScript strict equality between the values appearing in this
development.  Arrays are compared by reference in JavaScript, so two
array values built at different places are never strictly equal; we model
this conservatively by making arr values compare unequal. -/
def jsStrictEq : JSVal → JSVal → Bool
  | .str a, .str b => a == b
  | .num a, .num b => a == b
  | .bool a, .bool b => a == b
  | .null, .null => true
  | .undefined, .undefined => true
  | _, _ => false

/-- JavaScript truthiness of a value ("", 0, null and undefined are falsy). -/
def jsTruthy : JSVal → Bool
  | .str s => s ≠ ""
  | .num q => q ≠ 0
  | .bool b => b
  | .null => false
  | .undefined => false
  | .arr _ => true

/-- A spreadsheet row: a JavaScript object modelled as an association list
from field name to value, in key insertion order. -/
abbrev Row := List (String × JSVal)

/-- Property access row[key]: undefined when the key is absent. -/
def rowGet (row : Row) (key : String) : JSVal :=
  match row.lookup key with
  | some v => v
  | none => .undefined

/-- Object.keys: the keys of a row in insertion order. -/
def rowKeys (row : Row) : List String := row.map Prod.fst

/-! ## Character classes and string helpers (JavaScript semantics) -/

/-- The characters matched by the regular-expression class backslash-s
(whitespace); the inputs in this development only contain the ASCII ones. -/
def isWsp (c : Char) : Bool :=
  c == ' ' || c == '\t' || c == '\n' || c == '\r'

/-- The word-character class (letters, digits, underscore). -/
def isWordChar (c : Char) : Bool :=
  c.isAlphanum || c == '_'

/-- The dot class: any character except a line terminator. -/
def isDotChar (c : Char) : Bool :=
  c != '\n' && c != '\r'

/-- String.prototype.toLowerCase (ASCII, which covers all inputs here). -/
def lowerL (l : List Char) : List Char := l.map Char.toLower

/-- String.prototype.trim. -/
def trimL (l : List Char) : List Char :=
  ((l.dropWhile isWsp).reverse.dropWhile isWsp).reverse

/-- Does the second list start with the first one? -/
def startsWithL : List Char → List Char → Bool
  | [], _ => true
  | _ :: _, [] => false
  | p :: ps, c :: cs => p == c && startsWithL ps cs

/-- String.prototype.includes (substring containment). -/
def containsSubL (pat : List Char) : List Char → Bool
  | [] => startsWithL pat []
  | c :: cs => startsWithL pat (c :: cs) || containsSubL pat cs

/-- String.prototype.split with a single-character separator. -/
def splitOnCharAux (sep : Char) : List Char → List Char → List (List Char)
  | [], acc => [acc.reverse]
  | c :: cs, acc =>
      if c == sep then acc.reverse :: splitOnCharAux sep cs []
      else splitOnCharAux sep cs (c :: acc)

def splitOnChar (sep : Char) (l : List Char) : List (List Char) :=
  splitOnCharAux sep l []

/-- String.prototype.split with a one-or-more character-class pattern
(maximal runs of separator characters split the string; a leading or a
trailing run contributes an empty piece, exactly as in JavaScript). -/
def splitRunsAux (p : Char → Bool) : List Char → List Char → Bool → List (List Char)
  | [], acc, _ => [acc.reverse]
  | c :: cs, acc, inSep =>
      if p c then
        if inSep then splitRunsAux p cs [] true
        else acc.reverse :: splitRunsAux p cs [] true
      else splitRunsAux p cs (c :: acc) false

def splitRuns (p : Char → Bool) (l : List Char) : List (List Char) :=
  splitRunsAux p l [] false

/-- The value of a list of decimal digit characters. -/
def digitsToNat (l : List Char) : Nat :=
  l.foldl (fun a c => a * 10 + (c.toNat - 48)) 0

/-- JavaScript parseInt on a string (radix 10): skip leading whitespace,
read an optional sign and then a maximal run of digits; none models NaN. -/
def jsParseInt (s : List Char) : Option Int :=
  let t := s.dropWhile isWsp
  let signAndRest : Int × List Char :=
    match t with
    | '-' :: r => (-1, r)
    | '+' :: r => (1, r)
    | _ => (1, t)
  let digits := signAndRest.2.takeWhile Char.isDigit
  if digits.isEmpty then none
  else some (signAndRest.1 * (digitsToNat digits : Int))

/-- String coercion of a non-array value, as performed by a template
literal or by String(). -/
def jsvalToStringScalar : JSVal → String
  | .str s => s
  | .num q => if q.den == 1 then toString q.num else toString q.num ++ "/" ++ toString q.den
  | .bool b => if b then "true" else "false"
  | .null => "null"
  | .undefined => "undefined"
  | .arr _ => ""

/-- String coercion of a value, as performed by a template literal or by
String(); an array renders as its elements joined by a comma, with null and
undefined elements rendering empty (nested arrays, which do not occur in
this development, are not rendered). -/
def jsvalToString : JSVal → String
  | .arr xs =>
      String.intercalate ","
        (xs.map (fun v =>
          match v with
          | .null => ""
          | .undefined => ""
          | v => jsvalToStringScalar v))
  | v => jsvalToStringScalar v

/-- Array.prototype.join with the given separator (null and undefined
elements render as the empty string). -/
def joinVals (sep : String) (xs : List JSVal) : String :=
  String.intercalate sep
    (xs.map (fun v =>
      match v with
      | .null => ""
      | .undefined => ""
      | v => jsvalToString v))

/-! ## A small backtracking regular-expression engine

JavaScript regular expressions in the source are compiled, by hand, to
values of the Reg type below.  The engine enumerates candidate matches in
exactly the backtracking priority order of a JavaScript engine: alternation
is left-first, star is greedy (longest first), lazyStar is lazy (shortest
first), and the overall match is the first candidate at the leftmost
position.  Numbered groups record the captured substring. -/

inductive Reg where
  | eps
  | pred (p : Char → Bool)
  | seq (a b : Reg)
  | alt (a b : Reg)
  | star (a : Reg)
  | lazyStar (a : Reg)
  | group (idx : Nat) (a : Reg)

/-- Captured groups: group index to captured characters, most recent first. -/
abbrev Caps := List (Nat × List Char)

/-- The size of a regular expression, used to compute a sufficient fuel. -/
def regSize : Reg → Nat
  | .eps => 1
  | .pred _ => 1
  | .seq a b => regSize a + regSize b + 1
  | .alt a b => regSize a + regSize b + 1
  | .star a => regSize a + 1
  | .lazyStar a => regSize a + 1
  | .group _ a => regSize a + 1

/-- All ways to match a prefix of s against r, as (remaining suffix,
captures) pairs, in backtracking priority order.  The fuel (a structural
recursion counter) bounds the nesting depth; every star iteration must
consume at least one character (the progress rule of real engines), so the
fuel computed by matchFuel below is always sufficient. -/
def runsR : Nat → Reg → List Char → Caps → List (List Char × Caps)
  | 0, _, _, _ => []
  | fuel + 1, r, s, cs =>
      match r, s with
      | .eps, s => [(s, cs)]
      | .pred _, [] => []
      | .pred p, c :: rest => if p c then [(rest, cs)] else []
      | .seq a b, s =>
          (runsR fuel a s cs).flatMap (fun x => runsR fuel b x.1 x.2)
      | .alt a b, s => runsR fuel a s cs ++ runsR fuel b s cs
      | .group i a, s =>
          (runsR fuel a s cs).map
            (fun x => (x.1, (i, s.take (s.length - x.1.length)) :: x.2))
      | .star a, s =>
          ((runsR fuel a s cs).filter (fun x => x.1.length < s.length)).flatMap
              (fun x => runsR fuel (.star a) x.1 x.2)
            ++ [(s, cs)]
      | .lazyStar a, s =>
          (s, cs) ::
            ((runsR fuel a s cs).filter (fun x => x.1.length < s.length)).flatMap
              (fun x => runsR fuel (.lazyStar a) x.1 x.2)

/-- A fuel that is always sufficient: along any call path the fuel drops by
one per frame, the star progress rule bounds the sequential star unfoldings
by the input length, and the remaining frames descend into the expression. -/
def matchFuel (r : Reg) (s : List Char) : Nat :=
  (s.length + 1) * (regSize r + 2) + 1

/-- One regular-expression match: start position, matched text, captures. -/
structure RMatch where
  pos : Nat
  matched : List Char
  caps : Caps

/-- match[i] for a capture group: undefined (none) if it did not take part. -/
def capGet (m : RMatch) (i : Nat) : Option (List Char) :=
  m.caps.lookup i

/-- Find the first match of r in s at or after position start
(the unanchored leftmost-match search of String.prototype.match). -/
def findMatchFromAux : Nat → Reg → List Char → Nat → Option RMatch
  | 0, _, _, _ => none
  | fuel + 1, r, s, start =>
      if start > s.length then none
      else
        let tail := s.drop start
        match (runsR (matchFuel r tail) r tail []).head? with
        | some x => some ⟨start, tail.take (tail.length - x.1.length), x.2⟩
        | none => findMatchFromAux fuel r s (start + 1)

def findMatchFrom (r : Reg) (s : List Char) (start : Nat) : Option RMatch :=
  findMatchFromAux (s.length + 1 - start) r s start

/-- String.prototype.match without the global flag: the first match. -/
def jsMatch (r : Reg) (s : List Char) : Option RMatch :=
  findMatchFrom r s 0

/-- String.prototype.matchAll: all matches of a global regular expression,
advancing past each match (or by one character after an empty match). -/
def matchAllAux (fuel : Nat) (r : Reg) (s : List Char) (start : Nat) :
    List RMatch :=
  match fuel with
  | 0 => []
  | fuel + 1 =>
      match findMatchFrom r s start with
      | none => []
      | some m =>
          let next := if m.matched.length == 0 then m.pos + 1
                      else m.pos + m.matched.length
          m :: matchAllAux fuel r s next

def matchAllL (r : Reg) (s : List Char) : List RMatch :=
  matchAllAux (s.length + 2) r s 0

/-- RegExp.prototype.test for a pattern anchored at both ends. -/
def anchoredTest (r : Reg) (s : List Char) : Bool :=
  (runsR (matchFuel r s) r s []).any (fun x => x.1.isEmpty)

/-! ### Convenience constructors mirroring regular-expression syntax -/

/-- A single literal character. -/
def rchar (c : Char) : Reg := .pred (fun d => d == c)

/-- A literal string. -/
def rstr (t : String) : Reg :=
  (t.toList.map rchar).foldr Reg.seq Reg.eps

/-- Greedy question mark. -/
def ropt (a : Reg) : Reg := .alt a .eps

/-- Greedy plus. -/
def rplus (a : Reg) : Reg := .seq a (.star a)

/-- Lazy plus. -/
def rlazyplus (a : Reg) : Reg := .seq a (.lazyStar a)

/-- A sequence of regular expressions. -/
def rseq (l : List Reg) : Reg := l.foldr Reg.seq Reg.eps

/-- A left-first alternation over a non-empty list. -/
def ralt (l : List Reg) : Reg :=
  match l with
  | [] => Reg.eps
  | [a] => a
  | a :: rest => Reg.alt a (ralt rest)

/-- Backslash-s plus. -/
def rws1 : Reg := rplus (.pred isWsp)

/-- Backslash-s star. -/
def rws0 : Reg := .star (.pred isWsp)

/-- Backslash-d plus as a capture group with the given index. -/
def rdigits (idx : Nat) : Reg := .group idx (rplus (.pred Char.isDigit))

/-! ## A model of JSON.parse

JSON.parse is a library call; we model it on the fragment of JSON that
occurs in this repository (integer numbers, double-quoted strings without
escapes, arrays, booleans and null).  none models a thrown SyntaxError. -/

def jsonSkipWs (l : List Char) : List Char := l.dropWhile isWsp

/-- The recursive JSON value parser.  The second argument selects between
the two parsing modes: false parses one value, true parses the elements of
an array up to the closing bracket (the element-mode result is always
wrapped in the arr constructor). -/
def jsonParseVal : Nat → Bool → List Char → Option (JSVal × List Char)
  | 0, _, _ => none
  | fuel + 1, true, l =>
      match jsonParseVal fuel false l with
      | none => none
      | some (v, r) =>
          match jsonSkipWs r with
          | ',' :: r2 =>
              match jsonParseVal fuel true r2 with
              | some (.arr xs, r3) => some (.arr (v :: xs), r3)
              | _ => none
          | ']' :: r2 => some (.arr [v], r2)
          | _ => none
  | fuel + 1, false, l =>
      match jsonSkipWs l with
      | '[' :: r =>
          match jsonSkipWs r with
          | ']' :: r2 => some (.arr [], r2)
          | _ => jsonParseVal fuel true r
      | '"' :: r =>
          let content := r.takeWhile (fun c => c != '"')
          let rest := r.drop content.length
          match rest with
          | '"' :: r2 => some (.str (String.mk content), r2)
          | _ => none
      | 't' :: 'r' :: 'u' :: 'e' :: r => some (.bool true, r)
      | 'f' :: 'a' :: 'l' :: 's' :: 'e' :: r => some (.bool false, r)
      | 'n' :: 'u' :: 'l' :: 'l' :: r => some (.null, r)
      | '-' :: r =>
          let digits := r.takeWhile Char.isDigit
          if digits.isEmpty then none
          else some (.num (-(digitsToNat digits : ℚ)), r.drop digits.length)
      | t =>
          let digits := t.takeWhile Char.isDigit
          if digits.isEmpty then none
          else some (.num (digitsToNat digits : ℚ), t.drop digits.length)

/-- JSON.parse: the whole input, up to surrounding whitespace, must be one
JSON value. -/
def jsonParse (s : List Char) : Option JSVal :=
  match jsonParseVal (2 * s.length + 2) false s with
  | some (v, rest) => if (jsonSkipWs rest).isEmpty then some v else none
  | none => none

/-! ## src/lib/aiEngine.ts -/

/-- AICorrectionSuggestion. -/
structure AICorrectionSuggestion where
  type : String
  rowIndex : Nat
  column : String
  currentValue : JSVal
  suggestedValue : JSVal
  confidence : ℚ
  reason : String
  autoApply : Bool

/-- AISearchResult. -/
structure AISearchResult where
  matchedRows : List Nat
  query : String
  explanation : String

/-- One column/operator/value condition produced by the query parser. -/
structure QueryCondition where
  column : String
  operator : String
  value : JSVal

/-- The parse result of parseNaturalLanguageQuery. -/
structure NLQuery where
  operation : String
  conditions : List QueryCondition

/-- Helper findColumnByPattern: scan patterns in order, returning the first
header of the first row that contains the pattern case-insensitively. -/
def findColumnIn (headers : List String) : List String → Option String
  | [] => none
  | pattern :: rest =>
      match headers.find? (fun header =>
          containsSubL (lowerL pattern.toList) (lowerL header.toList)) with
      | some found => some found
      | none => findColumnIn headers rest

def findColumnByPattern (data : List Row) (patterns : List String) : Option String :=
  match data with
  | [] => none
  | firstRow :: _ => findColumnIn (rowKeys firstRow) patterns

/-- value.toLowerCase(): a TypeError unless the value is a string. -/
def jsToLowerCase (v : JSVal) : Except String String :=
  match v with
  | .str s => pure (String.mk (lowerL s.toList))
  | _ => throw "TypeError: toLowerCase is not a function"

/-- The dot character class. -/
def rdot : Reg := .pred isDotChar

/-- The class [a-zA-Z] of the source patterns. -/
def isAlphaChar (c : Char) : Bool := c.isAlpha

/-- The class [a-zA-Z\s] of the source patterns. -/
def isAlphaWsp (c : Char) : Bool := c.isAlpha || isWsp c

/-- The class [a-zA-Z\s,] of the source patterns. -/
def isAlphaWspComma (c : Char) : Bool := c.isAlpha || isWsp c || c == ','

/-! The regular expressions of parseNaturalLanguageQuery, compiled to Reg. -/

def durationGreaterReg : Reg :=
  rseq [rstr "duration", rws1, ropt (rseq [rstr "of", rws1]),
    ralt [rseq [rstr "more", rws1, rstr "than"],
      rseq [rstr "greater", rws1, rstr "than"],
      rseq [rstr ">", rws0]],
    rdigits 1]

def durationLessReg : Reg :=
  rseq [rstr "duration", rws1, ropt (rseq [rstr "of", rws1]),
    ralt [rseq [rstr "less", rws1, rstr "than"], rseq [rstr "<", rws0]],
    rdigits 1]

def priorityGreaterReg : Reg :=
  rseq [ropt (rseq [.star rdot, rws1]), rstr "priority", rws1,
    ropt (rseq [rstr "level", rws1]),
    ralt [rseq [rstr "greater", rws1, rstr "than"],
      rseq [rstr "more", rws1, rstr "than"],
      rseq [rstr ">", rws0]],
    rws0, rdigits 1]

def priorityLessReg : Reg :=
  rseq [ropt (rseq [.star rdot, rws1]), rstr "priority", rws1,
    ropt (rseq [rstr "level", rws1]),
    ralt [rseq [rstr "less", rws1, rstr "than"], rseq [rstr "<", rws0]],
    rws0, rdigits 1]

def priorityExactReg : Reg :=
  rseq [ropt (rseq [.star rdot, rws1]), rstr "priority", rws1,
    ropt (rseq [rstr "level", rws1]), rdigits 1]

def phaseReg : Reg := rseq [rstr "phase", rws1, rdigits 1]

def skillReg : Reg :=
  rseq [rstr "skill", ropt (rchar 's'), rws1, ropt (rseq [rstr "of", rws1]),
    .group 1 (rplus (.pred isAlphaWspComma))]

def roleReg : Reg :=
  rseq [rstr "role", rws1, ropt (rseq [rstr "of", rws1]),
    .group 1 (rplus (.pred isAlphaWsp))]

def groupReg : Reg :=
  rseq [rstr "group", rws1, ropt (rseq [rstr "of", rws1]),
    .group 1 (rplus (.pred isAlphaWsp))]

def categoryReg : Reg :=
  rseq [rstr "category", rws1, ropt (rseq [rstr "of", rws1]),
    .group 1 (rplus (.pred isAlphaWsp))]

/-- parseInt applied to a capture that is known to be a digit run (the
none case cannot arise for such captures). -/
def capNum (m : RMatch) (i : Nat) : JSVal :=
  match (capGet m i).getD [] |> jsParseInt with
  | some n => .num n
  | none => .num 0

/-- The capture text of group i (the groups used this way always take part
in the match). -/
def capStr (m : RMatch) (i : Nat) : List Char :=
  (capGet m i).getD []

/-- parseNaturalLanguageQuery: a fixed sequence of independent regular
expression extractions producing a conjunction of conditions. -/
def parseNaturalLanguageQuery (query : String) : NLQuery := Id.run do
  let lowerQuery := lowerL query.toList
  let mut conditions : List QueryCondition := []
  let durationMatch := jsMatch durationGreaterReg lowerQuery
  if let some m := durationMatch then
    conditions := conditions ++ [⟨"duration", ">", capNum m 1⟩]
  let durationLessMatch := jsMatch durationLessReg lowerQuery
  if let some m := durationLessMatch then
    conditions := conditions ++ [⟨"duration", "<", capNum m 1⟩]
  let priorityGreaterMatch := jsMatch priorityGreaterReg lowerQuery
  if let some m := priorityGreaterMatch then
    conditions := conditions ++ [⟨"prioritylevel", ">", capNum m 1⟩]
  let priorityLessMatch := jsMatch priorityLessReg lowerQuery
  if let some m := priorityLessMatch then
    conditions := conditions ++ [⟨"prioritylevel", "<", capNum m 1⟩]
  if priorityGreaterMatch.isNone && priorityLessMatch.isNone then
    if let some m := jsMatch priorityExactReg lowerQuery then
      conditions := conditions ++ [⟨"prioritylevel", "=", capNum m 1⟩]
  if let some m := jsMatch phaseReg lowerQuery then
    conditions := conditions ++ [⟨"preferredphases", "includes", capNum m 1⟩]
  if let some m := jsMatch skillReg lowerQuery then
    let skills := (splitRuns (fun c => c == ',' || isWsp c) (capStr m 1)).filter
      (fun s => s.length > 0)
    for skill in skills do
      conditions := conditions ++
        [⟨"requiredskills", "includes", .str (String.mk (trimL skill))⟩]
  if let some m := jsMatch roleReg lowerQuery then
    conditions := conditions ++
      [⟨"workergroup", "=", .str (String.mk (trimL (capStr m 1)))⟩]
  if let some m := jsMatch groupReg lowerQuery then
    conditions := conditions ++
      [⟨"grouptag", "=", .str (String.mk (trimL (capStr m 1)))⟩]
  if containsSubL "enterprise".toList lowerQuery then
    conditions := conditions ++ [⟨"grouptag", "=", .str "enterprise"⟩]
  if containsSubL "startup".toList lowerQuery then
    conditions := conditions ++ [⟨"grouptag", "=", .str "startup"⟩]
  if containsSubL "small".toList lowerQuery then
    conditions := conditions ++ [⟨"grouptag", "=", .str "small"⟩]
  if let some m := jsMatch categoryReg lowerQuery then
    conditions := conditions ++
      [⟨"category", "=", .str (String.mk (trimL (capStr m 1)))⟩]
  return ⟨"AND", conditions⟩

/-- matchesCondition: ordering comparisons coerce string cell values with
parseInt; equality is strict; includes treats the cell as an array, a JSON
array string, or falls back to case-insensitive substring matching — the
fallback calls toLowerCase on the condition value, a TypeError when that
value is a number. -/
def matchesCondition (value : JSVal) (condition : QueryCondition) :
    Except String Bool :=
  match condition.operator with
  | ">" =>
      let numValue : Option ℚ :=
        match value with
        | .str s => (jsParseInt s.toList).map Int.cast
        | .num q => some q
        | _ => none
      match numValue, condition.value with
      | some q, .num c => pure (decide (q > c))
      | _, _ => pure false
  | "<" =>
      let numValue2 : Option ℚ :=
        match value with
        | .str s => (jsParseInt s.toList).map Int.cast
        | .num q => some q
        | _ => none
      match numValue2, condition.value with
      | some q, .num c => pure (decide (q < c))
      | _, _ => pure false
  | "=" => pure (jsStrictEq value condition.value)
  | "includes" =>
      match value with
      | .arr xs => pure (xs.any (fun x => jsStrictEq x condition.value))
      | .str s =>
          match jsonParse s.toList with
          | some (.arr xs) => pure (xs.any (fun x => jsStrictEq x condition.value))
          | some _ => pure false
          | none =>
              match condition.value with
              | .str t =>
                  pure (containsSubL (lowerL t.toList) (lowerL s.toList))
              | _ => throw "TypeError: toLowerCase is not a function"
      | _ => pure false
  | _ => pure false

/-- executeNaturalLanguageSearch: filter the rows by the parsed conjunction
of conditions, collecting the matching original indices in order. -/
def executeNaturalLanguageSearch (data : List Row) (query : String) :
    Except String AISearchResult := do
  let parsed := parseNaturalLanguageQuery query
  let mut matchedRows : List Nat := []
  for p in data.enum do
    let mut rowMatches := true
    for condition in parsed.conditions do
      let value := rowGet p.2 condition.column
      let ok ← matchesCondition value condition
      if !ok then
        rowMatches := false
        break
    if rowMatches then
      matchedRows := matchedRows ++ [p.1]
  pure ⟨matchedRows, query,
    "Found " ++ toString matchedRows.length ++ " rows matching: " ++ query⟩

/-- The object spread update of a row: every existing key keeps its place
and value except the assigned key, which is overwritten in place if present
and appended otherwise. -/
def jsSetKey : Row → String → JSVal → Row
  | [], key, v => [(key, v)]
  | (k, w) :: rest, key, v =>
      if k == key then (k, v) :: rest
      else (k, w) :: jsSetKey rest key v

/-- applyAISuggestions: copy the row array and merge every suggestion whose
autoApply flag is set or whose confidence exceeds 0.8, replacing the
targeted row by a copy with the targeted cell overwritten.  (A rowIndex
outside the array, which would grow the JavaScript array, is not modeled;
the theorems below only target existing rows.) -/
def applyAISuggestions (data : List Row)
    (suggestions : List AICorrectionSuggestion) : List Row :=
  suggestions.foldl
    (fun newData suggestion =>
      if suggestion.autoApply || suggestion.confidence > (8 : ℚ)/10 then
        match newData.get? suggestion.rowIndex with
        | some row =>
            newData.set suggestion.rowIndex
              (jsSetKey row suggestion.column suggestion.suggestedValue)
        | none => newData
      else newData)
    data

/-- A heap of JavaScript objects: references are indices into the store,
and allocation appends.  Used to state that applyAISuggestions never
mutates an existing row object. -/
abbrev Store := List Row

/-- applyAISuggestions at the heap level: the row array is a list of
references into the store; the spread {...row, [column]: value} allocates a
fresh object, and only the (copied) array of references is updated. -/
def applyAISuggestionsHeap (store : Store) (data : List Nat)
    (suggestions : List AICorrectionSuggestion) : Store × List Nat :=
  suggestions.foldl
    (fun acc suggestion =>
      if suggestion.autoApply || suggestion.confidence > (8 : ℚ)/10 then
        let oldRow : Row :=
          match acc.2.get? suggestion.rowIndex with
          | some r => (acc.1.get? r).getD []
          | none => []
        let newRow := jsSetKey oldRow suggestion.column suggestion.suggestedValue
        (acc.1 ++ [newRow],
          if suggestion.rowIndex < acc.2.length then
            acc.2.set suggestion.rowIndex acc.1.length
          else acc.2)
      else acc)
    (store, data)

/-! ### The four heuristic correction rules of aiValidationRules -/

/-- The hardcoded domain-typo table of smart_email_correction. -/
def domainFixes : List (String × String) :=
  [("gmial.com", "gmail.com"), ("gmal.com", "gmail.com"),
   ("gmai.com", "gmail.com"), ("hotmai.com", "hotmail.com"),
   ("hotmal.com", "hotmail.com"), ("yaho.com", "yahoo.com"),
   ("outlok.com", "outlook.com")]

/-- String.prototype.replace with a string pattern: replace the first
occurrence only. -/
def jsReplaceFirst (pat rep : List Char) : List Char → List Char
  | [] => if startsWithL pat [] then rep ++ ([] : List Char).drop pat.length else []
  | c :: cs =>
      if startsWithL pat (c :: cs) then rep ++ (c :: cs).drop pat.length
      else c :: jsReplaceFirst pat rep cs

/-- The email-shape test of isValidEmail, compiled from its anchored
regular expression. -/
def isNotWspAt (c : Char) : Bool := !(isWsp c) && c != '@'

def emailReg : Reg :=
  rseq [rplus (.pred isNotWspAt), rchar '@', rplus (.pred isNotWspAt),
    rchar '.', rplus (.pred isNotWspAt)]

def isValidEmail (s : List Char) : Bool := anchoredTest emailReg s

/-- smart_email_correction: lowercase and trim, fix known domain typos,
insert a missing at-sign before the first dot, and suggest the result when
it differs from the original and passes the email-shape test. -/
def smart_email_correction (data : List Row) (_entityType : String) :
    Except String (List AICorrectionSuggestion) := do
  match findColumnByPattern data ["email"] with
  | none => pure []
  | some emailColumn =>
      let mut suggestions : List AICorrectionSuggestion := []
      for p in data.enum do
        let email := rowGet p.2 emailColumn
        match email with
        | .str s =>
            if s ≠ "" then
              let corrected0 := lowerL (trimL s.toList)
              let corrected1 :=
                match (splitOnChar '@' corrected0).get? 1 with
                | some domain =>
                    if domain ≠ [] then
                      match domainFixes.lookup (String.mk domain) with
                      | some fix => jsReplaceFirst domain fix.toList corrected0
                      | none => corrected0
                    else corrected0
                | none => corrected0
              let corrected2 :=
                if !(corrected1.contains '@') && corrected1.contains '.' then
                  let parts := splitOnChar '.' corrected1
                  if parts.length ≥ 2 then
                    parts.headD [] ++ ('@' :: (List.intercalate ['.'] parts.tail))
                  else corrected1
                else corrected1
              if String.mk corrected2 ≠ s && isValidEmail corrected2 then
                suggestions := suggestions ++
                  [⟨"format_error", p.1, emailColumn, email,
                    .str (String.mk corrected2), 9/10,
                    "Fixed common email format issues", true⟩]
        | _ => pure ()
      pure suggestions

/-- smart_phone_correction: strip non-digits and reformat exactly-10-digit
numbers to the (xxx) xxx-xxxx shape. -/
def smart_phone_correction (data : List Row) (_entityType : String) :
    Except String (List AICorrectionSuggestion) := do
  match findColumnByPattern data ["phone", "phone_number", "contact"] with
  | none => pure []
  | some phoneColumn =>
      let mut suggestions : List AICorrectionSuggestion := []
      for p in data.enum do
        let phone := rowGet p.2 phoneColumn
        match phone with
        | .str s =>
            if s ≠ "" then
              let digits := s.toList.filter Char.isDigit
              if digits.length == 10 then
                let formattedPhone := String.mk
                  ('(' :: digits.take 3 ++ [')', ' '] ++
                    ((digits.drop 3).take 3) ++ '-' :: digits.drop 6)
                if formattedPhone ≠ s then
                  suggestions := suggestions ++
                    [⟨"format_error", p.1, phoneColumn, phone,
                      .str formattedPhone, 95/100,
                      "Standardized phone number format", true⟩]
        | _ => pure ()
      pure suggestions

/-- The fixed role-to-skills lookup table of smart_skill_suggestions. -/
def roleSkillMap : List (String × List String) :=
  [("developer", ["javascript", "python", "java", "react", "node.js", "sql"]),
   ("designer", ["figma", "sketch", "adobe", "ui/ux", "prototyping", "wireframing"]),
   ("manager", ["leadership", "project management", "communication", "agile", "scrum"]),
   ("analyst", ["data analysis", "sql", "excel", "python", "statistics", "reporting"]),
   ("engineer", ["java", "python", "c++", "system design", "algorithms", "databases"])]

/-- JSON.stringify of an array of strings. -/
def jsonStringifyStrings (l : List String) : String :=
  "[" ++ String.intercalate "," (l.map (fun s => "\"" ++ s ++ "\"")) ++ "]"

/-- smart_skill_suggestions: when a row has a truthy role and an empty
skills cell, suggest the fixed skill list for that role.  Note the call
role.toLowerCase(): a TypeError when the role cell holds a number. -/
def smart_skill_suggestions (data : List Row) (_entityType : String) :
    Except String (List AICorrectionSuggestion) := do
  let skillsColumn? := findColumnByPattern data ["skills", "requiredskills", "required_skills"]
  let roleColumn? := findColumnByPattern data ["role", "position", "job"]
  match skillsColumn?, roleColumn? with
  | some skillsColumn, some roleColumn =>
      let mut suggestions : List AICorrectionSuggestion := []
      for p in data.enum do
        let role := rowGet p.2 roleColumn
        let skills := rowGet p.2 skillsColumn
        if jsTruthy role && !(jsTruthy skills) then
          let roleLower ← jsToLowerCase role
          let suggestedSkills := (roleSkillMap.lookup roleLower).getD []
          if suggestedSkills.length > 0 then
            suggestions := suggestions ++
              [⟨"missing_value", p.1, skillsColumn, .null,
                .str (jsonStringifyStrings suggestedSkills), 8/10,
                "Suggested skills based on role: " ++ jsvalToString role,
                false⟩]
      pure suggestions
  | _, _ => pure []

/-- smart_duration_estimation: estimate a missing duration from keywords of
the task title, reduced for high priority.  Note the call
title.toLowerCase(): a TypeError when the title cell holds a number. -/
def smart_duration_estimation (data : List Row) (_entityType : String) :
    Except String (List AICorrectionSuggestion) := do
  let durationColumn? := findColumnByPattern data ["duration"]
  let titleColumn? := findColumnByPattern data ["title", "name"]
  let priorityColumn? := findColumnByPattern data ["prioritylevel", "priority_level", "priority"]
  match durationColumn?, titleColumn? with
  | some durationColumn, some titleColumn =>
      let mut suggestions : List AICorrectionSuggestion := []
      for p in data.enum do
        let duration := rowGet p.2 durationColumn
        let title := rowGet p.2 titleColumn
        let priority :=
          match priorityColumn? with
          | some priorityColumn => rowGet p.2 priorityColumn
          | none => .null
        if !(jsTruthy duration) && jsTruthy title then
          let titleLowerS ← jsToLowerCase title
          let titleLower := titleLowerS.toList
          let estimated0 : ℚ :=
            if containsSubL "review".toList titleLower ||
                containsSubL "test".toList titleLower then 2
            else if containsSubL "design".toList titleLower ||
                containsSubL "plan".toList titleLower then 7
            else if containsSubL "implement".toList titleLower ||
                containsSubL "develop".toList titleLower then 10
            else if containsSubL "research".toList titleLower ||
                containsSubL "analysis".toList titleLower then 5
            else 5
          let estimatedDuration : ℚ :=
            if jsTruthy priority then
              let priorityNum : Option ℚ :=
                match priority with
                | .num q => some q
                | v => (jsParseInt (jsvalToString v).toList).map Int.cast
              match priorityNum with
              | some q => if q ≥ 4 then max 1 (estimated0 - 2) else estimated0
              | none => estimated0
            else estimated0
          suggestions := suggestions ++
            [⟨"missing_value", p.1, durationColumn, .null,
              .num estimatedDuration, 7/10,
              "Estimated duration based on task title: \"" ++
                jsvalToString title ++ "\"",
              false⟩]
      pure suggestions
  | _, _ => pure []

/-- generateAIValidationSuggestions: run the four rules of
aiValidationRules in their fixed order and concatenate their suggestions;
an exception in any rule propagates to the caller uncaught. -/
def generateAIValidationSuggestions (data : List Row) (entityType : String) :
    Except String (List AICorrectionSuggestion) := do
  let s1 ← smart_email_correction data entityType
  let s2 ← smart_phone_correction data entityType
  let s3 ← smart_skill_suggestions data entityType
  let s4 ← smart_duration_estimation data entityType
  pure (s1 ++ s2 ++ s3 ++ s4)

/-! ## src/lib/validation.ts (field validators) -/

/-- ValidationError. -/
structure ValidationError where
  type : String
  message : String
  rowIndex : Option Nat
  column : Option String
  value : Option JSVal
  severity : String

/-- Array.prototype.indexOf (first index under strict equality, -1 when
absent). -/
def jsIndexOf (l : List JSVal) (a : JSVal) : Int :=
  match l.findIdx? (fun b => jsStrictEq b a) with
  | some i => i
  | none => -1

/-- The shared body of the duplicate-identifier checks: collect the defined
non-empty id cells, keep every occurrence whose index differs from the
first index of its value, and for each such occurrence emit one error per
row carrying that value. -/
def duplicateIdErrors (data : List Row) (patterns : List String)
    (label : String) : List ValidationError :=
  match findColumnByPattern data patterns with
  | none => []
  | some idColumn =>
      let ids := (data.map (fun row => rowGet row idColumn)).filter
        (fun id => !(jsStrictEq id .undefined) && !(jsStrictEq id (.str "")))
      let duplicates := ((ids.enum).filter
        (fun p => jsIndexOf ids p.2 ≠ (p.1 : Int))).map Prod.snd
      duplicates.flatMap (fun duplicateId =>
        let duplicateRows := (data.enum).filter
          (fun p => jsStrictEq (rowGet p.2 idColumn) duplicateId)
        duplicateRows.map (fun p =>
          ⟨"error", "Duplicate " ++ label ++ ": " ++ jsvalToString duplicateId,
            some p.1, some idColumn, some duplicateId, "high"⟩))

/-- The duplicate_client_ids validation rule. -/
def duplicate_client_ids (data : List Row) : List ValidationError :=
  duplicateIdErrors data ["clientid", "client_id", "id"] "ClientID"

/-- The duplicate_task_ids validation rule. -/
def duplicate_task_ids (data : List Row) : List ValidationError :=
  duplicateIdErrors data ["taskid", "task_id", "id"] "TaskID"

/-- The validator's parsePhaseRange: an array passes through; a string is
split on commas, a part containing a dash contributes the inclusive integer
range between its first two dash-separated numbers, and any other part
contributes its parseInt value when that is a number. -/
def parsePhaseRange (value : JSVal) : List JSVal :=
  if !(jsTruthy value) then []
  else
    match value with
    | .arr xs => xs
    | .str s =>
        let parts := splitOnChar ',' s.toList
        parts.flatMap (fun part =>
          let trimmed := trimL part
          if trimmed.contains '-' then
            let nums := (splitOnChar '-' trimmed).map (fun x => jsParseInt (trimL x))
            match nums.get? 0, nums.get? 1 with
            | some (some start), some (some stop) =>
                if start ≤ stop then
                  (List.range (stop - start + 1).toNat).map
                    (fun i => JSVal.num (start + (i : Int)))
                else []
            | _, _ => []
          else
            match jsParseInt trimmed with
            | some n => [JSVal.num n]
            | none => [])
    | _ => []

/-! ## src/lib/prioritizationEngine.ts -/

/-- A prioritization criterion; of its fields only the id takes part in the
pairwise-comparison computations embedded here. -/
structure Criterion where
  id : String

/-- PairwiseComparison. -/
structure PairwiseComparison where
  criterion1 : String
  criterion2 : String
  value : ℚ

/-- generatePairwiseComparisons: all pairs i < j with the default value 1
(equal importance). -/
def generatePairwiseComparisons (criteria : List Criterion) :
    List PairwiseComparison :=
  (List.range criteria.length).flatMap (fun i =>
    (List.range' (i + 1) (criteria.length - (i + 1))).map (fun j =>
      ⟨((criteria.get? i).getD ⟨""⟩).id, ((criteria.get? j).getD ⟨""⟩).id, 1⟩))

/-- The comparison-filling loop shared by calculateWeightsFromPairwise and
calculateConsistencyRatio: for each comparison whose two criterion ids are
found, set entry (i, j) to the value and entry (j, i) to its reciprocal.
The matrix is represented as a function on indices; only indices below the
criterion count are ever read. -/
def fillPairwiseMatrix (comparisons : List PairwiseComparison)
    (criteria : List Criterion) (init : Nat → Nat → ℚ) : Nat → Nat → ℚ :=
  comparisons.foldl
    (fun m comp =>
      match criteria.findIdx? (fun c => c.id == comp.criterion1),
          criteria.findIdx? (fun c => c.id == comp.criterion2) with
      | some i, some j =>
          fun a b =>
            if a = j ∧ b = i then 1 / comp.value
            else if a = i ∧ b = j then comp.value
            else m a b
      | _, _ => m)
    init

/-- calculateWeightsFromPairwise: build the reciprocal matrix (diagonal
initialized to 1) and return the row sums divided by the total sum. -/
def calculateWeightsFromPairwise (comparisons : List PairwiseComparison)
    (criteria : List Criterion) : List ℚ :=
  let n := criteria.length
  let matrix := fillPairwiseMatrix comparisons criteria
    (fun a b => if a = b ∧ a < n then 1 else 0)
  let rowSums := (List.range n).map
    (fun i => ((List.range n).map (fun j => matrix i j)).sum)
  let totalSum := rowSums.sum
  rowSums.map (fun s => s / totalSum)

/-- The fixed Saaty random-index table. -/
def randomIndexTable : List ℚ :=
  [0, 0, 58/100, 9/10, 112/100, 124/100, 132/100, 141/100, 145/100, 149/100]

/-- calculateConsistencyRatio: recompute the weights, rebuild the
comparison matrix (note: without re-initializing the diagonal, which the
source leaves at 0 here), average the weighted row sums divided by the
weights to get lambda-max, and divide the consistency index by the random
index for the clamped matrix size. -/
def calculateConsistencyRatio (comparisons : List PairwiseComparison)
    (criteria : List Criterion) : ℚ :=
  let n := criteria.length
  let weights := calculateWeightsFromPairwise comparisons criteria
  let matrix := fillPairwiseMatrix comparisons criteria (fun _ _ => 0)
  let weightedSums := (List.range n).map
    (fun i => ((List.range n).map
      (fun j => matrix i j * weights.getD j 0)).sum)
  let lambdaMax :=
    ((weightedSums.enum).map (fun p => p.2 / weights.getD p.1 0)).sum / n
  let consistencyIndex := (lambdaMax - n) / ((n : ℚ) - 1)
  consistencyIndex / randomIndexTable.getD (min n (randomIndexTable.length - 1)) 0

/-! ### normalizeWeights over a model of JavaScript numbers

normalizeWeights divides by an unguarded sum, so its edge cases produce
NaN and signed infinities; JSNum models exactly the addition and division
behaviour of JavaScript floats on these special values (finite values
remain exact rationals, and the distinction between +0 and -0, which no
input of this development exercises, is not modelled). -/

inductive JSNum where
  | fin (q : ℚ)
  | inf
  | ninf
  | nan

/-- JavaScript addition on JSNum. -/
def jsAdd : JSNum → JSNum → JSNum
  | .fin a, .fin b => .fin (a + b)
  | .nan, _ => .nan
  | _, .nan => .nan
  | .inf, .ninf => .nan
  | .ninf, .inf => .nan
  | .inf, _ => .inf
  | _, .inf => .inf
  | .ninf, _ => .ninf
  | _, .ninf => .ninf

/-- JavaScript division on JSNum: a nonzero finite value divided by zero
gives a signed infinity, and zero divided by zero gives NaN. -/
def jsDiv : JSNum → JSNum → JSNum
  | .nan, _ => .nan
  | _, .nan => .nan
  | .fin a, .fin b =>
      if b ≠ 0 then .fin (a / b)
      else if a = 0 then .nan
      else if a > 0 then .inf
      else .ninf
  | .inf, .fin b => if b ≥ 0 then .inf else .ninf
  | .ninf, .fin b => if b ≥ 0 then .ninf else .inf
  | .fin _, .inf => .fin 0
  | .fin _, .ninf => .fin 0
  | .inf, .inf => .nan
  | .inf, .ninf => .nan
  | .ninf, .inf => .nan
  | .ninf, .ninf => .nan

/-- normalizeWeights: divide every entry by the (unguarded) sum. -/
def normalizeWeights (weights : List JSNum) : List JSNum :=
  let sum := weights.foldl jsAdd (.fin 0)
  weights.map (fun weight => jsDiv weight sum)

/-! ## src/lib/naturalLanguageRuleConverter.ts -/

/-- The three entity collections supplied to the converter (each may be
absent). -/
structure NLData where
  clients : Option (List Row)
  workers : Option (List Row)
  tasks : Option (List Row)

/-- The validation part of a ParsedRule. -/
structure RuleValidation where
  canApply : Bool
  reason : String
  suggestions : List String

/-- The parameters of a ParsedRule, one shape per rule type.  The constant
nested parameters object of the patternMatch shape is carried as its two
fields. -/
inductive RuleParams where
  | coRun (tasks : List JSVal) (description : String)
  | slotRestriction (groupType : String) (groupName : JSVal)
      (minCommonSlots : Int) (description : String)
  | loadLimit (workerGroup : JSVal) (maxSlotsPerPhase : Int)
      (description : String)
  | phaseWindow (taskId : JSVal) (allowedPhases : List Int)
      (description : String)
  | patternMatch (regex : String) (ruleTemplate : String)
      (requiredSkill : String) (minWorkers : Int) (description : String)
  | precedenceOverride (description : String)

/-- ParsedRule. -/
structure ParsedRule where
  type : String
  confidence : ℚ
  parameters : RuleParams
  validation : RuleValidation

/-- The spread of the JavaScript Set constructor: deduplicate, keeping the
first occurrence of each value. -/
def dedupeJSAux : List JSVal → List JSVal → List JSVal
  | [], _ => []
  | v :: rest, seen =>
      if seen.any (fun w => jsStrictEq w v) then dedupeJSAux rest seen
      else v :: dedupeJSAux rest (v :: seen)

def dedupeJS (l : List JSVal) : List JSVal := dedupeJSAux l []

namespace NLConv

/-! The rulePatterns table, compiled pattern by pattern.  Group numbers
follow the numbering of the capture groups in the JavaScript patterns. -/

def coRunPatterns : List Reg :=
  [rseq [ralt [rseq [rstr "task", ropt (rchar 's')], rstr "work"], rws1,
      .group 1 (rlazyplus rdot), rws1,
      ralt [rstr "must", rstr "should", rstr "need to"], rws1,
      ralt [rstr "run", rstr "execute", rstr "work"], rws1, rstr "together"],
   rseq [ralt [rstr "co-run", rstr "co run", rstr "concurrent"], rws1,
      ralt [rseq [rstr "task", ropt (rchar 's')], rstr "work"], rws1,
      .group 1 (rplus rdot)],
   rseq [ralt [rseq [rstr "task", ropt (rchar 's')], rstr "work"], rws1,
      .group 1 (rlazyplus rdot), rws1, ralt [rstr "are", rstr "is"], rws1,
      ralt [rstr "always", rstr "usually"], rws1,
      ralt [rstr "run", rstr "executed"], rws1, rstr "together"],
   rseq [ralt [rstr "group", rstr "bundle"], rws1,
      ralt [rseq [rstr "task", ropt (rchar 's')], rstr "work"], rws1,
      .group 1 (rplus rdot)]]

def slotRestrictionPatterns : List Reg :=
  [rseq [ralt [rstr "client", rstr "worker"], rws1,
      ropt (rseq [rstr "group", rws1]), .group 1 (rlazyplus rdot), rws1,
      ralt [rstr "must", rstr "should", rstr "need to"], rws1, rstr "have",
      rws1, ropt (rseq [rstr "at least", rws1]), rdigits 2, rws1,
      ropt (rseq [rstr "common", rws1]), rstr "slot", ropt (rchar 's')],
   rseq [ralt [rstr "minimum", rstr "min"], rws1, rdigits 1, rws1,
      ropt (rseq [rstr "common", rws1]), rstr "slot", ropt (rchar 's'), rws1,
      rstr "for", rws1, ralt [rstr "client", rstr "worker"], rws1,
      ropt (rseq [rstr "group", rws1]), .group 2 (rplus rdot)],
   rseq [ropt (rseq [rstr "slot", rws1]), rstr "restriction", rws1,
      rstr "for", rws1, ralt [rstr "client", rstr "worker"], rws1,
      ropt (rseq [rstr "group", rws1]), .group 1 (rlazyplus rdot), rws0,
      rchar ':', rws0, rdigits 2]]

def loadLimitPatterns : List Reg :=
  [rseq [ropt (rseq [rstr "worker", rws1]), rstr "group", rws1,
      .group 1 (rlazyplus rdot), rws1,
      ralt [rstr "limited to", rstr "max", rstr "maximum"], rws1, rdigits 2,
      rws1, ralt [rseq [rstr "slot", ropt (rchar 's')], rstr "load"], rws1,
      rstr "per", rws1, rstr "phase"],
   rseq [ropt (rseq [rstr "load", rws1]), rstr "limit", rws1, rstr "for",
      rws1, ropt (rseq [rstr "worker", rws1]), rstr "group", rws1,
      .group 1 (rlazyplus rdot), rws0, rchar ':', rws0, rdigits 2],
   rseq [ropt (rseq [rstr "worker", rws1]), rstr "group", rws1,
      .group 1 (rlazyplus rdot), rws1, rstr "cannot", rws1, rstr "exceed",
      rws1, rdigits 2, rws1,
      ralt [rseq [rstr "slot", ropt (rchar 's')], rstr "load"]]]

def phaseWindowPatterns : List Reg :=
  [rseq [ralt [rstr "task", rstr "work"], rws1, .group 1 (rlazyplus rdot),
      rws1, ralt [rstr "must", rstr "should", rstr "can only"], rws1,
      ralt [rstr "run", rstr "execute", rstr "work"], rws1,
      ralt [rstr "in", rstr "during", rstr "on"], rws1,
      ralt [rseq [rstr "phase", ropt (rchar 's')], rstr "phase"], rws1,
      .group 2 (rplus rdot)],
   rseq [ropt (rseq [rstr "phase", rws1]), rstr "window", rws1, rstr "for",
      rws1, ralt [rstr "task", rstr "work"], rws1,
      .group 1 (rlazyplus rdot), rws0, rchar ':', rws0,
      .group 2 (rplus rdot)],
   rseq [ralt [rstr "task", rstr "work"], rws1, .group 1 (rlazyplus rdot),
      rws1, ralt [rstr "restricted to", rstr "limited to"], rws1,
      ralt [rseq [rstr "phase", ropt (rchar 's')], rstr "phase"], rws1,
      .group 2 (rplus rdot)]]

def patternMatchPatterns : List Reg :=
  [rseq [ralt [rstr "pattern", rstr "regex"], rws1,
      .group 1 (rlazyplus rdot), rws1, ralt [rstr "for", rstr "matching"],
      rws1, .group 2 (rplus rdot)],
   rseq [ralt [rstr "rule", rstr "condition"], rws1,
      ralt [rstr "when", rstr "if"], rws1, .group 1 (rlazyplus rdot), rws1,
      ralt [rstr "then", rstr "apply"], rws1, .group 2 (rplus rdot)],
   rseq [ralt [rstr "custom", rstr "user-defined"], rws1,
      ralt [rstr "rule", rstr "condition"], rws1, .group 1 (rplus rdot)]]

def precedenceOverridePatterns : List Reg :=
  [rseq [ralt [rstr "precedence", rstr "priority"], rws1,
      ralt [rstr "order", rstr "override"], rws1, .group 1 (rplus rdot)],
   rseq [ralt [rstr "global", rstr "specific"], rws1,
      ralt [rseq [rstr "rule", ropt (rchar 's')], rstr "rule"], rws1,
      ralt [rstr "vs", rstr "versus"], rws1, .group 1 (rplus rdot)],
   rseq [ropt (rseq [rstr "rule", rws1]), rstr "priority", rws1,
      .group 1 (rplus rdot)]]

/-- The converter's parsePhaseRange: an A-to-B range, else a comma list,
else a single number. -/
def phaseRangeReg : Reg :=
  rseq [ropt (rseq [rstr "phase", ropt (rchar 's'), rws1]), rdigits 1,
    rws0, ralt [rstr "to", rstr "-"], rws0, rdigits 2]

def phaseListReg : Reg :=
  rseq [ropt (rseq [rstr "phase", ropt (rchar 's'), rws1]),
    .group 1 (rseq [rplus (.pred Char.isDigit),
      .star (rseq [rws0, rchar ',', rws0, rplus (.pred Char.isDigit)])])]

def phaseSingleReg : Reg :=
  rseq [ropt (rseq [rstr "phase", rws1]), rdigits 1]

def parsePhaseRange (text : List Char) : List Int :=
  match jsMatch phaseRangeReg text with
  | some m =>
      let start := (jsParseInt (capStr m 1)).getD 0
      let stop := (jsParseInt (capStr m 2)).getD 0
      if start ≤ stop then
        (List.range (stop - start + 1).toNat).map (fun i => start + (i : Int))
      else []
  | none =>
      match jsMatch phaseListReg text with
      | some m =>
          ((splitOnChar ',' (capStr m 1)).map
            (fun n => jsParseInt (trimL n))).filterMap id
      | none =>
          match jsMatch phaseSingleReg text with
          | some m =>
              match jsParseInt (capStr m 1) with
              | some phase => [phase]
              | none => []
          | none => []

/-- extractTaskIds: exact-token match of the (already lowercased) words
against the stored task ids, then against the lowercased task names;
deduplicated keeping first occurrences.  Note task.taskname.toLowerCase():
a TypeError when a truthy task name is not a string. -/
def extractTaskIds (text : List Char) (data : NLData) :
    Except String (List JSVal) := do
  let mut taskIds : List JSVal := []
  if let some tasks := data.tasks then
    let existingTaskIds := tasks.map (fun t => rowGet t "taskid")
    let words := splitRuns isWsp text
    for word in words do
      let cleanWord := word.filter isWordChar
      if existingTaskIds.any (fun v => jsStrictEq v (.str (String.mk cleanWord))) then
        taskIds := taskIds ++ [.str (String.mk cleanWord)]
  if let some tasks := data.tasks then
    let mut taskNameToId : List (String × JSVal) := []
    for task in tasks do
      let nm := rowGet task "taskname"
      if jsTruthy nm then
        let nmLower ← jsToLowerCase nm
        taskNameToId := (nmLower, rowGet task "taskid") :: taskNameToId
    let words := splitRuns isWsp (lowerL text)
    for word in words do
      match taskNameToId.lookup (String.mk word) with
      | some v => if jsTruthy v then taskIds := taskIds ++ [v]
      | none => pure ()
  pure (dedupeJS taskIds)

/-- extractGroupName: exact cleaned-token match against the known group
values, then substring match against each group name.  Note
group.toLowerCase(): a TypeError when a stored group value is not a
string. -/
def extractGroupName (text : List Char) (data : NLData)
    (groupType : String) : Except String (Option JSVal) := do
  let groups :=
    if groupType == "client" then
      dedupeJS ((data.clients.getD []).map (fun c => rowGet c "grouptag"))
    else
      dedupeJS ((data.workers.getD []).map (fun w => rowGet w "workergroup"))
  let words := splitRuns isWsp (lowerL text)
  for word in words do
    let cleanWord := word.filter isWordChar
    if groups.any (fun g => jsStrictEq g (.str (String.mk cleanWord))) then
      return some (.str (String.mk cleanWord))
  for group in groups do
    let groupLower ← jsToLowerCase group
    if containsSubL groupLower.toList (lowerL text) then
      return some group
  pure none

/-- extractNumber: the first run of digits, as a number. -/
def extractNumber (text : List Char) : Option Int :=
  match jsMatch (rdigits 1) text with
  | some m => jsParseInt (capStr m 1)
  | none => none

/-- The global character-class replacement
patternText.replace of every character outside word/whitespace by dot-star
(used to build the fallback regex of a patternMatch rule). -/
def replaceNonWordWs (l : List Char) : List Char :=
  l.flatMap (fun c => if isWordChar c || isWsp c then [c] else ['.', '*'])

/-- parseNaturalLanguageRule: evaluate every pattern family on the
lowercased sentence and keep the single candidate with the strictly
highest confidence (ties keep the first found); null when nothing
matches. -/
def parseNaturalLanguageRule (ruleText : String) (data : NLData) :
    Except String (Option ParsedRule) := do
  let text := lowerL ruleText.toList
  let mut bestMatch : Option ParsedRule := none
  let mut highestConfidence : ℚ := 0
  for pattern in coRunPatterns do
    for m in matchAllL pattern text do
      let taskText := capStr m 1
      let taskIds ← extractTaskIds taskText data
      if taskIds.length ≥ 2 then
        let confidence := min ((9 : ℚ)/10)
          ((1 : ℚ)/2 + (taskIds.length : ℚ) * ((1 : ℚ)/10))
        if confidence > highestConfidence then
          bestMatch := some
            { type := "coRun", confidence := confidence,
              parameters := .coRun taskIds
                ("Tasks " ++ joinVals ", " taskIds ++ " must run together"),
              validation :=
                ⟨decide (2 ≤ taskIds.length),
                  if 2 ≤ taskIds.length then "Valid co-run rule"
                  else "Need at least 2 tasks", []⟩ }
          highestConfidence := confidence
  for pattern in slotRestrictionPatterns do
    for m in matchAllL pattern text do
      let groupText := capStr m 1
      let slotsText := capStr m 2
      let minSlots := extractNumber slotsText
      if let some ms := minSlots then
        if ms ≠ 0 && ms > 0 then
          let isClientGroup := containsSubL "client".toList text ||
            containsSubL "customer".toList text
          let isWorkerGroup := containsSubL "worker".toList text ||
            containsSubL "employee".toList text
          let groupType := if isClientGroup then "client"
            else if isWorkerGroup then "worker" else "client"
          let groupName? ← extractGroupName groupText data groupType
          if let some groupName := groupName? then
            if jsTruthy groupName then
              let confidence : ℚ := 8/10
              if confidence > highestConfidence then
                bestMatch := some
                  { type := "slotRestriction", confidence := confidence,
                    parameters := .slotRestriction groupType groupName ms
                      (groupType ++ " group " ++ jsvalToString groupName ++
                        " requires minimum " ++ toString ms ++ " common slots"),
                    validation := ⟨true, "Valid slot restriction rule", []⟩ }
                highestConfidence := confidence
  for pattern in loadLimitPatterns do
    for m in matchAllL pattern text do
      let groupText := capStr m 1
      let limitText := capStr m 2
      let maxSlots := extractNumber limitText
      if let some ms := maxSlots then
        if ms ≠ 0 && ms > 0 then
          let groupName? ← extractGroupName groupText data "worker"
          if let some groupName := groupName? then
            if jsTruthy groupName then
              let confidence : ℚ := 8/10
              if confidence > highestConfidence then
                bestMatch := some
                  { type := "loadLimit", confidence := confidence,
                    parameters := .loadLimit groupName ms
                      ("Worker group " ++ jsvalToString groupName ++
                        " limited to " ++ toString ms ++ " slots per phase"),
                    validation := ⟨true, "Valid load limit rule", []⟩ }
                highestConfidence := confidence
  for pattern in phaseWindowPatterns do
    for m in matchAllL pattern text do
      let taskText := capStr m 1
      let phaseText := capStr m 2
      let taskIds ← extractTaskIds taskText data
      let phases := parsePhaseRange phaseText
      if taskIds.length > 0 && phases.length > 0 then
        let confidence : ℚ := 7/10
        if confidence > highestConfidence then
          bestMatch := some
            { type := "phaseWindow", confidence := confidence,
              parameters := .phaseWindow (taskIds.headD .undefined) phases
                ("Task " ++ jsvalToString (taskIds.headD .undefined) ++
                  " restricted to phases " ++
                  String.intercalate ", " (phases.map toString)),
              validation :=
                ⟨decide (0 < taskIds.length ∧ 0 < phases.length),
                  if 0 < taskIds.length ∧ 0 < phases.length then
                    "Valid phase window rule"
                  else "Need task ID and phases", []⟩ }
          highestConfidence := confidence
  for pattern in patternMatchPatterns do
    for m in matchAllL pattern text do
      let patternText := capStr m 1
      let regex :=
        if containsSubL "skill".toList patternText ||
            containsSubL "javascript".toList patternText ||
            containsSubL "python".toList patternText then
          ".*(skill|javascript|python).*"
        else if containsSubL "priority".toList patternText ||
            containsSubL "high".toList patternText then
          ".*(priority|high).*"
        else ".*" ++ String.mk (replaceNonWordWs patternText) ++ ".*"
      let confidence : ℚ := 6/10
      if confidence > highestConfidence then
        bestMatch := some
          { type := "patternMatch", confidence := confidence,
            parameters := .patternMatch regex "skill-requirement" "skill" 1
              ("Pattern match rule: " ++ String.mk patternText),
            validation := ⟨true, "Valid pattern match rule",
              ["Consider refining the regex pattern for better accuracy"]⟩ }
        highestConfidence := confidence
  for pattern in precedenceOverridePatterns do
    for m in matchAllL pattern text do
      let orderText := capStr m 1
      let confidence : ℚ := 1/2
      if confidence > highestConfidence then
        bestMatch := some
          { type := "precedenceOverride", confidence := confidence,
            parameters := .precedenceOverride
              ("Precedence override: " ++ String.mk orderText),
            validation :=
              ⟨false, "Precedence override rules require manual configuration",
                ["Please specify the exact rule priority order manually"]⟩ }
        highestConfidence := confidence
  pure bestMatch

/-- validateRuleAgainstData: re-validate a parsed rule against the live
collections, downgrading canApply with an explanatory reason when a
referenced task id or group value no longer exists. -/
def validateRuleAgainstData (rule : ParsedRule) (data : NLData) : ParsedRule :=
  let validation0 := rule.validation
  let validation :=
    match rule.parameters with
    | .coRun tasks _ =>
        let existingTasks := (data.tasks.getD []).map (fun t => rowGet t "taskid")
        let missingTasks := tasks.filter
          (fun taskId => !(existingTasks.any (fun e => jsStrictEq e taskId)))
        if missingTasks.length > 0 then
          ⟨false, "Tasks not found: " ++ joinVals ", " missingTasks,
            validation0.suggestions⟩
        else validation0
    | .slotRestriction groupType groupName _ _ =>
        if groupType == "client" then
          let clientGroups := dedupeJS
            ((data.clients.getD []).map (fun c => rowGet c "grouptag"))
          if !(clientGroups.any (fun g => jsStrictEq g groupName)) then
            ⟨false, "Client group \"" ++ jsvalToString groupName ++
              "\" not found", validation0.suggestions⟩
          else validation0
        else if groupType == "worker" then
          let workerGroups := dedupeJS
            ((data.workers.getD []).map (fun w => rowGet w "workergroup"))
          if !(workerGroups.any (fun g => jsStrictEq g groupName)) then
            ⟨false, "Worker group \"" ++ jsvalToString groupName ++
              "\" not found", validation0.suggestions⟩
          else validation0
        else validation0
    | .loadLimit workerGroup _ _ =>
        let workerGroups := dedupeJS
          ((data.workers.getD []).map (fun w => rowGet w "workergroup"))
        if !(workerGroups.any (fun g => jsStrictEq g workerGroup)) then
          ⟨false, "Worker group \"" ++ jsvalToString workerGroup ++
            "\" not found", validation0.suggestions⟩
        else validation0
    | .phaseWindow taskId _ _ =>
        let existingTasks := (data.tasks.getD []).map (fun t => rowGet t "taskid")
        if !(existingTasks.any (fun e => jsStrictEq e taskId)) then
          ⟨false, "Task \"" ++ jsvalToString taskId ++ "\" not found",
            validation0.suggestions⟩
        else validation0
    | _ => validation0
  { rule with validation := validation }

end NLConv

/-! ## Concrete inputs used by the claim evaluations -/

/-- The three-row dataset of the duration-query property. -/
def sampleDurationRows : List Row :=
  [[("duration", .num 3)], [("duration", .num 7)], [("duration", .str "10")]]

/-- A worker row whose role cell holds a number and whose skills cell is
empty. -/
def roleNumberRows : List Row := [[("role", .num 5), ("skills", .str "")]]

/-- A task row whose preferred-phases cell holds range text that is not
valid JSON. -/
def phaseStringRows : List Row := [[("preferredphases", .str "1-3")]]

/-- Two, respectively three, criteria (only the ids matter). -/
def criteriaPair : List Criterion := [⟨"a"⟩, ⟨"b"⟩]

def criteriaTriple : List Criterion := [⟨"a"⟩, ⟨"b"⟩, ⟨"c"⟩]

/-- Task collections with upper-case and with lower-case task ids. -/
def coRunTasksUpper : List Row :=
  [[("taskid", .str "T1"), ("taskname", .str "Alpha")],
   [("taskid", .str "T2"), ("taskname", .str "Beta")]]

def coRunTasksLower : List Row :=
  [[("taskid", .str "t1"), ("taskname", .str "Alpha")],
   [("taskid", .str "t2"), ("taskname", .str "Beta")]]

def coRunDataUpper : NLData := ⟨none, none, some coRunTasksUpper⟩

def coRunDataLower : NLData := ⟨none, none, some coRunTasksLower⟩

def coRunDataMissingT2 : NLData :=
  ⟨none, none, some [[("taskid", .str "t1"), ("taskname", .str "Alpha")]]⟩

/-- The rule that the co-run sentence parses to over coRunDataLower. -/
def coRunRuleT1T2 : ParsedRule :=
  { type := "coRun", confidence := 7/10,
    parameters := .coRun [.str "t1", .str "t2"] "Tasks t1, t2 must run together",
    validation := ⟨true, "Valid co-run rule", []⟩ }

/-- Three rows sharing one client id. -/
def tripleDuplicateRows : List Row :=
  [[("clientid", .str "A")], [("clientid", .str "A")], [("clientid", .str "A")]]

/-- Does a validation error carry the given value? -/
def errorHasValue (v : JSVal) (e : ValidationError) : Bool :=
  match e.value with
  | some w => jsStrictEq w v
  | none => false

/-- The merge of one (qualifying) suggestion into the dataset: the body of
the then-branch of applyAISuggestions. -/
def mergeSuggestion (newData : List Row)
    (suggestion : AICorrectionSuggestion) : List Row :=
  match newData.get? suggestion.rowIndex with
  | some row =>
      newData.set suggestion.rowIndex
        (jsSetKey row suggestion.column suggestion.suggestedValue)
  | none => newData

/-- A suggestion with confidence 0.85 and autoApply off, and one with
confidence 0.5 and autoApply off, over a one-row dataset. -/
def suggestionRows : List Row := [[("skills", .str "old"), ("name", .str "w1")]]

def suggestion85 : AICorrectionSuggestion :=
  ⟨"missing_value", 0, "skills", .str "old", .str "new", 85/100, "r", false⟩

def suggestion50 : AICorrectionSuggestion :=
  ⟨"missing_value", 0, "skills", .str "old", .str "new", 1/2, "r", false⟩

/-- The weight vector [1, -1], whose sum is zero but whose entries are not
all zero. -/
def mixedZeroSumWeights : List JSNum := [.fin 1, .fin (-1)]

/-- A one-row store used by the heap-level witness. -/
def heapStore1 : Store := [[("skills", .str "old")]]

/-! ## Supporting lemmas -/

theorem foldl_ite_filter {α β : Type} (p : α → Bool) (f : β → α → β) :
    ∀ (l : List α) (init : β),
      l.foldl (fun acc x => if p x then f acc x else acc) init =
        (l.filter p).foldl f init := by
  intro l
  induction l with
  | nil => intro init; rfl
  | cons a t ih =>
      intro init
      by_cases h : p a
      · simp only [List.foldl_cons, List.filter_cons, h, if_true]
        exact ih (f init a)
      · simp only [List.foldl_cons, List.filter_cons, h, if_false, Bool.false_eq_true]
        exact ih init

theorem lookup_jsSetKey_self (row : Row) (key : String) (v : JSVal) :
    (jsSetKey row key v).lookup key = some v := by
  induction row with
  | nil => simp [jsSetKey]
  | cons head rest ih =>
      obtain ⟨k, w⟩ := head
      by_cases h : k = key
      · subst h; simp [jsSetKey]
      · have hkf : (key == k) = false := beq_eq_false_iff_ne.mpr (Ne.symm h)
        have hk2 : (k == key) = false := beq_eq_false_iff_ne.mpr h
        simp only [jsSetKey, hk2, Bool.false_eq_true, if_false, List.lookup_cons, hkf]
        exact ih

theorem lookup_jsSetKey_ne (row : Row) (key key' : String) (v : JSVal)
    (h : key' ≠ key) :
    (jsSetKey row key v).lookup key' = row.lookup key' := by
  induction row with
  | nil => simp [jsSetKey, List.lookup_cons, beq_eq_false_iff_ne.mpr h]
  | cons head rest ih =>
      obtain ⟨k, w⟩ := head
      by_cases hk : k = key
      · subst hk
        have hne : (key' == k) = false := beq_eq_false_iff_ne.mpr h
        simp [jsSetKey, List.lookup_cons, hne]
      · have hk2 : (k == key) = false := beq_eq_false_iff_ne.mpr hk
        simp only [jsSetKey, hk2, Bool.false_eq_true, if_false, List.lookup_cons]
        cases hc : key' == k with
        | true => rfl
        | false => exact ih

theorem rowGet_jsSetKey_self (row : Row) (key : String) (v : JSVal) :
    rowGet (jsSetKey row key v) key = v := by
  simp [rowGet, lookup_jsSetKey_self]

theorem rowGet_jsSetKey_ne (row : Row) (key key' : String) (v : JSVal)
    (h : key' ≠ key) :
    rowGet (jsSetKey row key v) key' = rowGet row key' := by
  simp [rowGet, lookup_jsSetKey_ne _ _ _ _ h]

theorem foldl_jsAdd_fin (qs : List ℚ) :
    ∀ a : ℚ, (qs.map JSNum.fin).foldl jsAdd (.fin a) = .fin (a + qs.sum) := by
  induction qs with
  | nil => intro a; simp [jsAdd]
  | cons q t ih =>
      intro a
      simp only [List.map_cons, List.foldl_cons, List.sum_cons, jsAdd, ih]
      rw [add_assoc]

theorem sum_map_div (l : List ℚ) (s : ℚ) :
    (l.map (fun q => q / s)).sum = l.sum / s := by
  induction l with
  | nil => simp
  | cons q t ih => simp [ih, add_div]

theorem take_eq_trans {α : Type} {a b c : List α}
    (hab : b.take a.length = a) (hbc : c.take b.length = b) :
    c.take a.length = a := by
  have hle : a.length ≤ b.length := by
    have := congrArg List.length hab
    simp only [List.length_take] at this
    omega
  calc c.take a.length
      = (c.take b.length).take a.length := by
        rw [List.take_take]
        congr 1
        omega
    _ = b.take a.length := by rw [hbc]
    _ = a := hab

theorem foldl_store_extends {σ : Type} {β : Type}
    (f : (Store × σ) → β → (Store × σ))
    (hf : ∀ acc s, ((f acc s).1).take acc.1.length = acc.1) :
    ∀ (l : List β) (acc : Store × σ),
      ((List.foldl f acc l).1).take acc.1.length = acc.1 := by
  intro l
  induction l with
  | nil => intro acc; exact List.take_length _
  | cons s rest ih =>
      intro acc
      rw [List.foldl_cons]
      exact take_eq_trans (hf acc s) (ih (f acc s))

theorem applyAISuggestionsHeap_take (store : Store) (data : List Nat)
    (suggestions : List AICorrectionSuggestion) :
    ((applyAISuggestionsHeap store data suggestions).1).take store.length = store := by
  refine foldl_store_extends _ (fun acc s => ?_) suggestions (store, data)
  by_cases hc : (s.autoApply || s.confidence > (8 : ℚ)/10) = true
  · simp only [hc, if_true]
    simp [List.take_left]
  · simp only [Bool.not_eq_true] at hc
    simp only [hc, Bool.false_eq_true, if_false]
    exact List.take_length _

theorem jsStrictEq_eq {a b : JSVal} (h : jsStrictEq a b = true) : a = b := by
  cases a <;> cases b <;> simp_all [jsStrictEq]

theorem length_filter_flatMap {α β : Type} (l : List α) (g : α → List β)
    (p : β → Bool) :
    ((l.flatMap g).filter p).length =
      (l.map (fun a => ((g a).filter p).length)).sum := by
  induction l with
  | nil => rfl
  | cons a t ih => simp [List.flatMap_cons, List.filter_append, ih]

theorem sum_map_ite_const {α : Type} (l : List α) (g : α → Bool) (K : Nat) :
    (l.map (fun d => if g d then K else 0)).sum = l.countP g * K := by
  induction l with
  | nil => simp
  | cons a t ih =>
      by_cases h : g a
      · simp [h, ih, List.countP_cons, Nat.add_mul, Nat.add_comm]
      · simp [h, ih, List.countP_cons]

theorem countP_bool_split {α : Type} (l : List α) (a b : α → Bool) :
    l.countP (fun x => a x && b x) + l.countP (fun x => !(a x) && b x) =
      l.countP b := by
  induction l with
  | nil => simp
  | cons x t ih =>
      by_cases ha : a x <;> by_cases hb : b x <;>
        simp [List.countP_cons, ha, hb] <;> omega

theorem findIdx?_get {α : Type} (p : α → Bool) :
    ∀ (l : List α) (i : Nat), l.findIdx? p = some i →
      ∃ x, l.get? i = some x ∧ p x = true := by
  intro l
  induction l with
  | nil => intro i h; simp [List.findIdx?_nil] at h
  | cons a t ih =>
      intro i h
      rw [List.findIdx?_cons] at h
      by_cases hpa : p a
      · rw [if_pos hpa] at h
        obtain rfl : (0 : Nat) = i := Option.some.inj h
        exact ⟨a, rfl, hpa⟩
      · rw [if_neg hpa, List.findIdx?_succ] at h
        obtain ⟨j, hj, rfl⟩ := Option.map_eq_some'.mp h
        obtain ⟨x, hx, hpx⟩ := ih j hj
        exact ⟨x, by simpa using hx, hpx⟩

theorem countP_enumFrom_idx {α : Type} (g : α → Bool) (i₀ : Nat) :
    ∀ (l : List α) (n : Nat),
      (l.enumFrom n).countP (fun p => decide (p.1 = i₀) && g p.2) =
        if n ≤ i₀ then
          (match l.get? (i₀ - n) with
           | some x => if g x then 1 else 0
           | none => 0)
        else 0 := by
  intro l
  induction l with
  | nil =>
      intro n
      simp only [List.enumFrom_nil, List.countP_nil, List.get?_nil]
      split <;> rfl
  | cons a t ih =>
      intro n
      rw [List.enumFrom_cons, List.countP_cons]
      by_cases hn : n = i₀
      · subst hn
        have h1 : (t.enumFrom (n + 1)).countP (fun p => decide (p.1 = n) && g p.2) = 0 := by
          rw [ih (n + 1), if_neg (by omega)]
        simp only [h1, Nat.zero_add, Bool.true_and, le_refl, if_true,
          Nat.sub_self, List.get?_cons_zero, decide_eq_true_eq]
        simp
      · have h2 : (decide ((n, a).1 = i₀) && g (n, a).2) = false := by
          simp [hn]
        rw [h2]
        rw [ih (n + 1)]
        by_cases hle : n ≤ i₀
        · have hlt : n + 1 ≤ i₀ := by omega
          rw [if_pos hlt, if_pos hle]
          have : i₀ - n = (i₀ - (n + 1)) + 1 := by omega
          rw [this, List.get?_cons_succ]
          simp
        · have h3 : ¬(n + 1 ≤ i₀) := by omega
          rw [if_neg h3, if_neg hle]
          simp

theorem jsIndexOf_found {ids : List JSVal} {v : JSVal}
    (h : 0 < ids.countP (fun d => jsStrictEq d v)) :
    ∃ (i₀ : Nat) (x : JSVal), jsIndexOf ids v = (i₀ : Int) ∧
      ids.get? i₀ = some x ∧ jsStrictEq x v = true := by
  obtain ⟨x, hx, hpx⟩ := List.countP_pos_iff.mp h
  have hsome : ids.findIdx? (fun b => jsStrictEq b v) ≠ none := by
    intro hnone
    exact absurd hpx (by simpa using List.findIdx?_eq_none_iff.mp hnone x hx)
  obtain ⟨i₀, hi₀⟩ := Option.ne_none_iff_exists'.mp hsome
  obtain ⟨y, hy, hpy⟩ := findIdx?_get _ ids i₀ hi₀
  exact ⟨i₀, y, by simp [jsIndexOf, hi₀], hy, hpy⟩

theorem countP_duplicates (ids : List JSVal) (v : JSVal) :
    ((((ids.enum).filter
        (fun p => jsIndexOf ids p.2 ≠ ((p.1 : Nat) : Int))).map Prod.snd).countP
      (fun d => jsStrictEq d v)) =
      ids.countP (fun d => jsStrictEq d v) - 1 := by
  set k := ids.countP (fun d => jsStrictEq d v) with hk
  rw [List.countP_map, List.countP_filter]
  have hcongr1 : ∀ p : Nat × JSVal,
      (((fun d => jsStrictEq d v) ∘ Prod.snd) p &&
          decide (jsIndexOf ids p.2 ≠ ((p.1 : Nat) : Int))) =
        (!(decide (jsIndexOf ids v = ((p.1 : Nat) : Int))) && jsStrictEq p.2 v) := by
    intro p
    by_cases hsv : jsStrictEq p.2 v = true
    · have hp2 : p.2 = v := jsStrictEq_eq hsv
      subst hp2
      simp [Function.comp, hsv, Bool.and_comm, decide_not]
    · have hf : jsStrictEq p.2 v = false := Bool.eq_false_iff.mpr hsv
      simp [Function.comp, hf]
  rw [List.countP_congr (fun p _ => by rw [hcongr1 p])]
  have hsplit := countP_bool_split ids.enum
    (fun p => decide (jsIndexOf ids v = ((p.1 : Nat) : Int)))
    (fun p => jsStrictEq p.2 v)
  have hb : ids.enum.countP (fun p => jsStrictEq p.2 v) = k := by
    rw [hk]
    have hcomp : (fun p : Nat × JSVal => jsStrictEq p.2 v) =
        ((fun d => jsStrictEq d v) ∘ Prod.snd) := rfl
    rw [hcomp, ← List.countP_map, List.enum_map_snd]
  have hhit : ids.enum.countP
      (fun p => decide (jsIndexOf ids v = ((p.1 : Nat) : Int)) && jsStrictEq p.2 v) =
      if k = 0 then 0 else 1 := by
    by_cases hk0 : k = 0
    · rw [if_pos hk0]
      have hle : ids.enum.countP
          (fun p => decide (jsIndexOf ids v = ((p.1 : Nat) : Int)) && jsStrictEq p.2 v) ≤
            ids.enum.countP (fun p => jsStrictEq p.2 v) :=
        List.countP_mono_left (fun p _ h => (Bool.and_eq_true _ _ |>.mp h).2)
      omega
    · rw [if_neg hk0]
      have hfound : 0 < ids.countP (fun d => jsStrictEq d v) := by omega
      obtain ⟨i₀, x, hidx, hget, hpx⟩ := jsIndexOf_found hfound
      have hcongr2 : ∀ p ∈ ids.enum,
          (decide (jsIndexOf ids v = ((p.1 : Nat) : Int)) && jsStrictEq p.2 v) = true ↔
            (decide (p.1 = i₀) && jsStrictEq p.2 v) = true := by
        intro p _
        rw [hidx]
        by_cases hpi : p.1 = i₀
        · simp [hpi]
        · have hne : ¬((i₀ : Int) = ((p.1 : Nat) : Int)) := by
            intro hh
            exact hpi (by exact_mod_cast hh.symm)
          simp [hpi, hne]
      rw [List.countP_congr hcongr2]
      rw [List.enum_eq_enumFrom, countP_enumFrom_idx (fun d => jsStrictEq d v) i₀ ids 0]
      rw [if_pos (Nat.zero_le _)]
      simp only [Nat.sub_zero, hget, hpx, if_true]
  rw [hb, hhit] at hsplit
  by_cases hk0 : k = 0
  · rw [if_pos hk0] at hsplit
    omega
  · rw [if_neg hk0] at hsplit
    omega

theorem countP_filtered_ids (data : List Row) (idColumn : String) (v : JSVal)
    (hv1 : jsStrictEq v .undefined = false) (hv2 : jsStrictEq v (.str "") = false) :
    (((data.map (fun row => rowGet row idColumn)).filter
        (fun id => !(jsStrictEq id .undefined) && !(jsStrictEq id (.str "")))).countP
      (fun d => jsStrictEq d v)) =
      (data.filter (fun row => jsStrictEq (rowGet row idColumn) v)).length := by
  rw [List.countP_filter, List.countP_map, ← List.countP_eq_length_filter]
  refine List.countP_congr (fun row _ => ?_)
  constructor
  · intro h
    exact (Bool.and_eq_true _ _ |>.mp h).1
  · intro h
    have hv : rowGet row idColumn = v :=
      jsStrictEq_eq (by simpa [Function.comp] using h)
    simp [Function.comp, hv, h, hv1, hv2]
    simpa [Function.comp, hv] using h

theorem length_filter_enum_snd {α : Type} (data : List α) (q : α → Bool) :
    ((data.enum).filter (fun p => q p.2)).length = (data.filter q).length := by
  rw [← List.countP_eq_length_filter, ← List.countP_eq_length_filter]
  have hcomp : (fun p : Nat × α => q p.2) = (q ∘ Prod.snd) := rfl
  rw [hcomp, ← List.countP_map, List.enum_map_snd]

theorem duplicateIdErrors_characterization
    (data : List Row) (patterns : List String) (label : String)
    (idColumn : String) (v : JSVal)
    (hcol : findColumnByPattern data patterns = some idColumn)
    (hv1 : jsStrictEq v .undefined = false)
    (hv2 : jsStrictEq v (.str "") = false) :
    (∀ e ∈ duplicateIdErrors data patterns label,
        e.severity = "high" ∧ e.type = "error") ∧
    ((duplicateIdErrors data patterns label).filter (errorHasValue v)).length =
      (data.filter (fun row => jsStrictEq (rowGet row idColumn) v)).length *
        ((data.filter (fun row => jsStrictEq (rowGet row idColumn) v)).length - 1) := by
  have h1 : duplicateIdErrors data patterns label =
      (((((data.map (fun row => rowGet row idColumn)).filter
          (fun id => !(jsStrictEq id .undefined) && !(jsStrictEq id (.str "")))).enum).filter
            (fun p => jsIndexOf ((data.map (fun row => rowGet row idColumn)).filter
              (fun id => !(jsStrictEq id .undefined) && !(jsStrictEq id (.str "")))) p.2 ≠
                ((p.1 : Nat) : Int))).map Prod.snd).flatMap
        (fun duplicateId =>
          ((data.enum).filter
            (fun p => jsStrictEq (rowGet p.2 idColumn) duplicateId)).map
            (fun p =>
              ⟨"error", "Duplicate " ++ label ++ ": " ++ jsvalToString duplicateId,
                some p.1, some idColumn, some duplicateId, "high"⟩)) := by
    simp only [duplicateIdErrors, hcol]
  constructor
  · intro e he
    rw [h1] at he
    obtain ⟨d, _, hme⟩ := List.mem_flatMap.mp he
    obtain ⟨p, _, rfl⟩ := List.mem_map.mp hme
    exact ⟨rfl, rfl⟩
  · set K := (data.filter (fun row => jsStrictEq (rowGet row idColumn) v)).length
      with hK
    rw [h1, length_filter_flatMap]
    have h2 : ∀ d : JSVal,
        ((((data.enum).filter
            (fun p => jsStrictEq (rowGet p.2 idColumn) d)).map
            (fun p => (⟨"error", "Duplicate " ++ label ++ ": " ++ jsvalToString d,
                some p.1, some idColumn, some d, "high"⟩ : ValidationError))).filter
          (errorHasValue v)).length =
        if jsStrictEq d v then K else 0 := by
      intro d
      rw [List.filter_map]
      rw [List.length_map]
      by_cases hd : jsStrictEq d v = true
      · rw [if_pos hd]
        have hdv : d = v := jsStrictEq_eq hd
        rw [hdv] at hd ⊢
        have hconst : ∀ p ∈ (data.enum).filter
            (fun p => jsStrictEq (rowGet p.2 idColumn) v),
            (errorHasValue v ∘ fun p : Nat × Row =>
              (⟨"error", "Duplicate " ++ label ++ ": " ++ jsvalToString v,
                some p.1, some idColumn, some v, "high"⟩ : ValidationError)) p =
              (fun _ => true) p := by
          intro p _
          simp [Function.comp, errorHasValue, hd]
        rw [List.filter_congr hconst, List.filter_true]
        rw [hK]
        exact length_filter_enum_snd data (fun row => jsStrictEq (rowGet row idColumn) v)
      · rw [if_neg hd]
        have hdf : jsStrictEq d v = false := Bool.eq_false_iff.mpr hd
        have hconst : ∀ p ∈ (data.enum).filter
            (fun p => jsStrictEq (rowGet p.2 idColumn) d),
            (errorHasValue v ∘ fun p : Nat × Row =>
              (⟨"error", "Duplicate " ++ label ++ ": " ++ jsvalToString d,
                some p.1, some idColumn, some d, "high"⟩ : ValidationError)) p =
              (fun _ => false) p := by
          intro p _
          simp [Function.comp, errorHasValue, hdf]
        rw [List.filter_congr hconst, List.filter_false]
        rfl
    rw [List.map_congr_left (fun d _ => h2 d)]
    rw [sum_map_ite_const, countP_duplicates, countP_filtered_ids data idColumn v hv1 hv2]
    rw [← hK, Nat.mul_comm]

/-! ## Claim theorems -/

/-- C1: for an all-equal (value 1) pairwise-comparison set,
calculateWeightsFromPairwise does return the uniform weight vector (1/n
each, shown here at n = 2 and n = 3), but calculateConsistencyRatio does
not return 0: because the function rebuilds the comparison matrix without
re-initializing its diagonal to 1, lambda-max evaluates to n - 1 instead
of n, so the ratio is -1/((n-1) * randomIndex n) — concretely -50/29 at
n = 2 and -5/9 at n = 3. -/
theorem C1_equal_pairwise_evaluation :
    calculateWeightsFromPairwise (generatePairwiseComparisons criteriaPair) criteriaPair = [1/2, 1/2] ∧
    calculateWeightsFromPairwise (generatePairwiseComparisons criteriaTriple) criteriaTriple = [1/3, 1/3, 1/3] ∧
    calculateConsistencyRatio (generatePairwiseComparisons criteriaPair) criteriaPair = -50/29 ∧
    calculateConsistencyRatio (generatePairwiseComparisons criteriaTriple) criteriaTriple = -5/9 := by
  refine ⟨?_, ?_, ?_, ?_⟩ <;> exact of_decide_eq_true (by with_unfolding_all rfl)

/-- C2: the query "duration more than 5" over the rows
[duration 3, duration 7, duration "10"] matches all three rows, not
[1, 2]: the duration regular expression lacks whitespace between "than"
and the digits, so no duration condition is produced and the empty
conjunction matches every row.  With the separator present (the query
"duration > 5"), the result is [1, 2], the string cell "10" being coerced
with parseInt before the comparison, exactly as the claim describes. -/
theorem C2_duration_query_evaluation :
    executeNaturalLanguageSearch sampleDurationRows "duration more than 5" =
      .ok ⟨[0, 1, 2], "duration more than 5", "Found 3 rows matching: duration more than 5"⟩ ∧
    executeNaturalLanguageSearch sampleDurationRows "duration > 5" =
      .ok ⟨[1, 2], "duration > 5", "Found 2 rows matching: duration > 5"⟩ := ⟨rfl, rfl⟩

/-- C9: the core functions are not all exception-free: a worker row whose
role cell holds the number 5 with an empty skills cell makes
generateAIValidationSuggestions throw a TypeError (role.toLowerCase on a
number inside smart_skill_suggestions), and the query "phase 2" over a row
whose preferred-phases cell holds the non-JSON text "1-3" makes
executeNaturalLanguageSearch throw a TypeError
(condition.value.toLowerCase on a number inside matchesCondition). -/
theorem C9_uncaught_type_errors :
    generateAIValidationSuggestions roleNumberRows "worker" =
      .error "TypeError: toLowerCase is not a function" ∧
    executeNaturalLanguageSearch phaseStringRows "phase 2" =
      .error "TypeError: toLowerCase is not a function" := ⟨rfl, rfl⟩

/-- C4 counterexample: parsing "Tasks T1 and T2 must run together" against
a task collection whose ids are the upper-case strings T1 and T2 yields
null, not a coRun rule: the sentence is lowercased before the
case-sensitive exact-token match against the stored ids. -/
theorem C4_uppercase_ids_counterexample :
    NLConv.parseNaturalLanguageRule "Tasks T1 and T2 must run together" coRunDataUpper = .ok none := rfl

/-- C4 (amended): with lower-case task ids t1 and t2 the sentence parses
to a coRun rule of confidence 0.7 whose parameters.tasks holds exactly t1
and t2 and whose validation.canApply is true; re-validating that rule
against a collection from which t2 is absent sets canApply to false with
the reason naming the missing task. -/
theorem C4_lowercase_coRun_rule :
    NLConv.parseNaturalLanguageRule "Tasks T1 and T2 must run together" coRunDataLower =
      .ok (some coRunRuleT1T2) ∧
    coRunRuleT1T2.type = "coRun" ∧
    coRunRuleT1T2.parameters = .coRun [.str "t1", .str "t2"] "Tasks t1, t2 must run together" ∧
    coRunRuleT1T2.validation.canApply = true ∧
    (NLConv.validateRuleAgainstData coRunRuleT1T2 coRunDataMissingT2).validation.canApply = false ∧
    (NLConv.validateRuleAgainstData coRunRuleT1T2 coRunDataMissingT2).validation.reason =
      "Tasks not found: t2" :=
  ⟨by with_unfolding_all rfl, rfl, rfl, rfl, by with_unfolding_all rfl, by with_unfolding_all rfl⟩

/-- C5 counterexample: the validator's parsePhaseRange does not understand
a JSON array literal: the text "[1,2,3]" parses to [2, 3] (the bracketed
tokens "[1" and "3]" go through parseInt, which rejects the former and
truncates the latter), not to [1, 2, 3]. -/
theorem C5_json_array_counterexample :
    parsePhaseRange (.str "[1,2,3]") = [JSVal.num 2, JSVal.num 3] ∧
    parsePhaseRange (.str "[1,2,3]") ≠ [JSVal.num 1, JSVal.num 2, JSVal.num 3] := by
  have h1 : parsePhaseRange (.str "[1,2,3]") = [JSVal.num 2, JSVal.num 3] := by
    with_unfolding_all rfl
  exact ⟨h1, fun h => by rw [h1] at h; simpa using congrArg List.length h⟩

/-- C5 (amended): the validator's parsePhaseRange maps "1-3" to [1, 2, 3],
"2,4" to [2, 4], "abc" to [], and the JSON array literal text "[1,2,3]" to
[2, 3] (not to the literal's elements). -/
theorem C5_phase_range_evaluations :
    parsePhaseRange (.str "1-3") = [JSVal.num 1, JSVal.num 2, JSVal.num 3] ∧
    parsePhaseRange (.str "2,4") = [JSVal.num 2, JSVal.num 4] ∧
    parsePhaseRange (.str "abc") = [] ∧
    parsePhaseRange (.str "[1,2,3]") = [JSVal.num 2, JSVal.num 3] :=
  ⟨by with_unfolding_all rfl, by with_unfolding_all rfl, rfl, by with_unfolding_all rfl⟩

/-- C3 counterexample: for three rows sharing one client id the
duplicate-id check emits six errors, not one per occurrence: row 0 alone
receives two errors. -/
theorem C3_triplicate_counterexample :
    (duplicate_client_ids tripleDuplicateRows).length = 6 ∧
    ((duplicate_client_ids tripleDuplicateRows).filter
        (fun e => e.rowIndex == some 0)).length = 2 := ⟨rfl, rfl⟩

/-- C6: a suggestion passed to applyAISuggestions is merged into the
dataset exactly when its autoApply flag is set or its confidence is
strictly greater than 0.8: the result equals the plain fold of the merge
over the suggestions passing that test.  In particular a suggestion with
confidence 0.85 and autoApply off is merged, and one with confidence 0.5
and autoApply off leaves the dataset unchanged. -/
theorem C6_merge_condition :
    (∀ (data : List Row) (suggestions : List AICorrectionSuggestion),
      applyAISuggestions data suggestions =
        (suggestions.filter
          (fun s => s.autoApply || s.confidence > (8 : ℚ)/10)).foldl mergeSuggestion data) ∧
    applyAISuggestions suggestionRows [suggestion85] =
      [[("skills", .str "new"), ("name", .str "w1")]] ∧
    applyAISuggestions suggestionRows [suggestion50] = suggestionRows := by
  refine ⟨fun data suggestions => ?_, by with_unfolding_all rfl, by with_unfolding_all rfl⟩
  exact foldl_ite_filter (fun s => s.autoApply || s.confidence > (8 : ℚ)/10)
    mergeSuggestion suggestions data

/-- C7: when applyAISuggestions merges a single qualifying suggestion
targeting an existing row and column, the returned dataset has the same
length, every other row is unchanged, every other column of the targeted
row is unchanged, and the targeted cell holds the suggested value. -/
theorem C7_targeted_cell_only (data : List Row) (s : AICorrectionSuggestion)
    (hcond : s.autoApply = true ∨ (8 : ℚ)/10 < s.confidence)
    (hlt : s.rowIndex < data.length) :
    (applyAISuggestions data [s]).length = data.length ∧
    (∀ j, j ≠ s.rowIndex → (applyAISuggestions data [s]).get? j = data.get? j) ∧
    (∀ key, key ≠ s.column →
      rowGet (((applyAISuggestions data [s]).get? s.rowIndex).getD []) key =
        rowGet ((data.get? s.rowIndex).getD []) key) ∧
    rowGet (((applyAISuggestions data [s]).get? s.rowIndex).getD []) s.column =
      s.suggestedValue := by
  have hc : (s.autoApply || s.confidence > (8 : ℚ)/10) = true := by
    rcases hcond with h | h
    · simp [h]
    · simp [h]
  have hrow : data.get? s.rowIndex = some (data.get ⟨s.rowIndex, hlt⟩) :=
    List.get?_eq_get hlt
  have happ : applyAISuggestions data [s] =
      data.set s.rowIndex
        (jsSetKey (data.get ⟨s.rowIndex, hlt⟩) s.column s.suggestedValue) := by
    simp only [applyAISuggestions, List.foldl_cons, List.foldl_nil, hc, if_true, hrow]
  have hset : (data.set s.rowIndex
      (jsSetKey (data.get ⟨s.rowIndex, hlt⟩) s.column s.suggestedValue)).get?
        s.rowIndex =
      some (jsSetKey (data.get ⟨s.rowIndex, hlt⟩) s.column s.suggestedValue) := by
    simp only [List.get?_eq_getElem?]
    exact List.getElem?_set_self (by simpa using hlt)
  refine ⟨?_, ?_, ?_, ?_⟩
  · simp [happ]
  · intro j hj
    simp only [happ, List.get?_eq_getElem?]
    exact List.getElem?_set_ne (Ne.symm hj)
  · intro key hkey
    rw [happ, hset, hrow]
    simpa using rowGet_jsSetKey_ne _ _ _ _ hkey
  · rw [happ, hset]
    simpa using rowGet_jsSetKey_self _ _ _

/-- Witness for C7 at a concrete dataset and suggestion. -/
theorem C7_witness :
    (suggestion85.autoApply = true ∨ (8 : ℚ)/10 < suggestion85.confidence) ∧
    suggestion85.rowIndex < suggestionRows.length ∧
    ((applyAISuggestions suggestionRows [suggestion85]).length = suggestionRows.length ∧
      (∀ j, j ≠ suggestion85.rowIndex →
        (applyAISuggestions suggestionRows [suggestion85]).get? j = suggestionRows.get? j) ∧
      (∀ key, key ≠ suggestion85.column →
        rowGet (((applyAISuggestions suggestionRows [suggestion85]).get?
            suggestion85.rowIndex).getD []) key =
          rowGet ((suggestionRows.get? suggestion85.rowIndex).getD []) key) ∧
      rowGet (((applyAISuggestions suggestionRows [suggestion85]).get?
          suggestion85.rowIndex).getD []) suggestion85.column =
        suggestion85.suggestedValue) :=
  have h1 : suggestion85.autoApply = true ∨ (8 : ℚ)/10 < suggestion85.confidence :=
    Or.inr (of_decide_eq_true (by with_unfolding_all rfl))
  have h2 : suggestion85.rowIndex < suggestionRows.length := by decide
  ⟨h1, h2, C7_targeted_cell_only suggestionRows suggestion85 h1 h2⟩

/-- C8 (amended): for an input vector of finite weights with nonzero sum,
normalizeWeights divides every entry by the sum, the (exact) entries sum
to 1, and the length is preserved; for the all-zero vector of any length
every entry of the result is NaN.  (A zero-sum vector with nonzero
entries instead produces signed infinities; see the counterexample.) -/
theorem C8_normalize_weights (qs : List ℚ) (h : qs.sum ≠ 0) :
    normalizeWeights (qs.map .fin) = qs.map (fun q => JSNum.fin (q / qs.sum)) ∧
    (qs.map (fun q => q / qs.sum)).sum = 1 ∧
    (normalizeWeights (qs.map .fin)).length = qs.length ∧
    ∀ n, normalizeWeights (List.replicate n (.fin 0)) = List.replicate n .nan := by
  have hsum : (qs.map JSNum.fin).foldl jsAdd (.fin 0) = .fin qs.sum := by
    simpa using foldl_jsAdd_fin qs 0
  have hmain : normalizeWeights (qs.map .fin) = qs.map (fun q => JSNum.fin (q / qs.sum)) := by
    simp only [normalizeWeights, hsum, List.map_map]
    refine List.map_congr_left (fun q _ => ?_)
    simp [Function.comp, jsDiv, h]
  refine ⟨hmain, ?_, ?_, ?_⟩
  · rw [sum_map_div, div_self h]
  · simp [hmain]
  · intro n
    have hz : (List.replicate n (JSNum.fin 0)).foldl jsAdd (.fin 0) = .fin 0 := by
      have : List.replicate n (JSNum.fin 0) = (List.replicate n (0 : ℚ)).map JSNum.fin := by
        simp [List.map_replicate]
      rw [this]
      simpa using foldl_jsAdd_fin (List.replicate n (0 : ℚ)) 0
    simp only [normalizeWeights, hz, List.map_replicate]
    simp [jsDiv]

/-- Witness for C8 at the weight vector [1, 3]. -/
theorem C8_witness :
    (([(1 : ℚ), 3]).sum ≠ 0) ∧
    ((([(1 : ℚ), 3]).map (fun q => q / ([(1 : ℚ), 3]).sum)).sum = 1) :=
  have h : (([(1 : ℚ), 3]).sum ≠ 0) := by norm_num
  ⟨h, (C8_normalize_weights [1, 3] h).2.1⟩

/-- C8 counterexample: the vector [1, -1] sums to zero, yet
normalizeWeights returns [Infinity, -Infinity], whose entries are not
NaN — the all-NaN description only fits the all-zero vector. -/
theorem C8_mixed_zero_sum_counterexample :
    mixedZeroSumWeights.foldl jsAdd (.fin 0) = .fin 0 ∧
    normalizeWeights mixedZeroSumWeights = [.inf, .ninf] ∧
    JSNum.inf ≠ JSNum.nan ∧ JSNum.ninf ≠ JSNum.nan :=
  ⟨by with_unfolding_all rfl, by with_unfolding_all rfl,
    fun h => JSNum.noConfusion h, fun h => JSNum.noConfusion h⟩

/-- C10: applyAISuggestions never mutates its input: at the heap level,
every row object that existed before the call is unchanged afterwards
(the store grows only by freshly allocated copies), so all merged changes
appear only in the returned array of references. -/
theorem C10_no_store_mutation (store : Store) (data : List Nat)
    (suggestions : List AICorrectionSuggestion) :
    ((applyAISuggestionsHeap store data suggestions).1).take store.length = store ∧
    ∀ r, r < store.length →
      (applyAISuggestionsHeap store data suggestions).1.get? r = store.get? r := by
  have h := applyAISuggestionsHeap_take store data suggestions
  refine ⟨h, fun r hr => ?_⟩
  conv_rhs => rw [← h]
  simp only [List.get?_eq_getElem?]
  rw [List.getElem?_take_of_lt hr]

/-- Witness for C10 at a concrete store, reference array and suggestion. -/
theorem C10_witness :
    0 < heapStore1.length ∧
    (applyAISuggestionsHeap heapStore1 [0] [suggestion85]).1.get? 0 = heapStore1.get? 0 :=
  ⟨by decide,
    (C10_no_store_mutation heapStore1 [0] [suggestion85]).2 0 (by decide)⟩

/-- C3 (amended): in the duplicate-identifier checks every emitted error
has severity high and type error, but the number of errors carrying a
given id value v is k * (k - 1) for k occurrences of v among the rows —
the per-duplicate re-scan emits one error for every row carrying the
value, for each non-first occurrence.  This equals one error per
occurrence only when k = 2. -/
theorem C3_duplicate_id_check (data : List Row) (v : JSVal) (idc idt : String)
    (hc : findColumnByPattern data ["clientid", "client_id", "id"] = some idc)
    (ht : findColumnByPattern data ["taskid", "task_id", "id"] = some idt)
    (hv1 : jsStrictEq v .undefined = false)
    (hv2 : jsStrictEq v (.str "") = false) :
    (∀ e ∈ duplicate_client_ids data, e.severity = "high" ∧ e.type = "error") ∧
    (∀ e ∈ duplicate_task_ids data, e.severity = "high" ∧ e.type = "error") ∧
    ((duplicate_client_ids data).filter (errorHasValue v)).length =
      (data.filter (fun row => jsStrictEq (rowGet row idc) v)).length *
        ((data.filter (fun row => jsStrictEq (rowGet row idc) v)).length - 1) ∧
    ((duplicate_task_ids data).filter (errorHasValue v)).length =
      (data.filter (fun row => jsStrictEq (rowGet row idt) v)).length *
        ((data.filter (fun row => jsStrictEq (rowGet row idt) v)).length - 1) :=
  ⟨(duplicateIdErrors_characterization data _ "ClientID" idc v hc hv1 hv2).1,
   (duplicateIdErrors_characterization data _ "TaskID" idt v ht hv1 hv2).1,
   (duplicateIdErrors_characterization data _ "ClientID" idc v hc hv1 hv2).2,
   (duplicateIdErrors_characterization data _ "TaskID" idt v ht hv1 hv2).2⟩

/-- Witness for C3 at the three-row duplicate dataset. -/
theorem C3_witness :
    (findColumnByPattern tripleDuplicateRows ["clientid", "client_id", "id"] =
        some "clientid") ∧
    (findColumnByPattern tripleDuplicateRows ["taskid", "task_id", "id"] =
        some "clientid") ∧
    jsStrictEq (.str "A") .undefined = false ∧
    jsStrictEq (.str "A") (.str "") = false ∧
    (((duplicate_client_ids tripleDuplicateRows).filter
        (errorHasValue (.str "A"))).length =
      (tripleDuplicateRows.filter
          (fun row => jsStrictEq (rowGet row "clientid") (.str "A"))).length *
        ((tripleDuplicateRows.filter
            (fun row => jsStrictEq (rowGet row "clientid") (.str "A"))).length - 1)) :=
  have hc : findColumnByPattern tripleDuplicateRows ["clientid", "client_id", "id"] =
      some "clientid" := rfl
  have ht : findColumnByPattern tripleDuplicateRows ["taskid", "task_id", "id"] =
      some "clientid" := rfl
  have hv1 : jsStrictEq (.str "A") .undefined = false := rfl
  have hv2 : jsStrictEq (.str "A") (.str "") = false := rfl
  ⟨hc, ht, hv1, hv2,
    (C3_duplicate_id_check tripleDuplicateRows (.str "A") "clientid" "clientid"
      hc ht hv1 hv2).2.2.1⟩
